import Mathlib

/-!
# Verification of the NBA prop-predictor temporal feature engine

This file gives a shallow embedding of the feature-engineering core of the
repository (backend/src/features.py, backend/src/realtime_features.py and the
feature lists of backend/src/train.py) and settles the frozen claims about it.

Modelling conventions:
* Python floats are modelled as rationals; a pandas NaN cell is modelled as
  Option.none.  Raw box-score statistics in the input CSV are plain finite
  numbers, so raw statistic fields are plain rationals; NaN enters only through
  the shift-by-one / minimum-period rules, exactly as in pandas.
* pandas standard deviations (rolling std with ddof between 1) are irrational in
  general; every std feature is represented by its square, the sample variance.
  All properties stated here (definedness, dependence on prior games, equality
  of the two paths) are invariant under the strictly monotone square root, so
  nothing is lost by working with the radicand.
* Python strings are modelled as lists of characters so that all string
  operations are structurally computable.  A Python IndexError from a failed
  split-indexing is modelled as Option.none.
* One game date is an integer day number; pandas diff().dt.days is exact
  integer arithmetic on these.
-/

/-! ## Character-list string utilities (Python str.split and the in operator) -/

/-- If pat is an initial segment of s, return the remainder of s, else none. -/
def stripPref : List Char → List Char → Option (List Char)
  | [], s => some s
  | _ :: _, [] => none
  | p :: ps, c :: cs => if c = p then stripPref ps cs else none

/-- Fuelled worker for splitOnL; cur holds the current fragment reversed. -/
def splitFrom (pat : List Char) : Nat → List Char → List Char → List (List Char)
  | 0, cur, _ => [cur.reverse]
  | _ + 1, cur, [] => [cur.reverse]
  | fuel + 1, cur, c :: cs =>
    match stripPref pat (c :: cs) with
    | some rest => cur.reverse :: splitFrom pat fuel [] rest
    | none => splitFrom pat fuel (c :: cur) cs

/-- Python s.split(pat): leftmost non-overlapping occurrences of pat. -/
def splitOnL (s pat : List Char) : List (List Char) :=
  splitFrom pat (s.length + 1) [] s

/-- Python pat in s: true when s splits into more than one fragment. -/
def strContainsL (s pat : List Char) : Bool :=
  (splitOnL s pat).length != 1

theorem splitFrom_ne_nil (pat : List Char) (fuel : Nat) (cur s : List Char) :
    splitFrom pat fuel cur s ≠ [] := by
  induction fuel generalizing cur s with
  | zero => simp [splitFrom]
  | succ n ih =>
    cases s with
    | nil => simp [splitFrom]
    | cons c cs =>
      simp only [splitFrom]
      cases stripPref pat (c :: cs) with
      | none => exact ih _ _
      | some rest => simp

theorem splitOnL_ne_nil (s pat : List Char) : splitOnL s pat ≠ [] :=
  splitFrom_ne_nil pat (s.length + 1) [] s

theorem two_le_splitOnL_of_contains (s pat : List Char)
    (h : strContainsL s pat = true) : 2 ≤ (splitOnL s pat).length := by
  have h1 : (splitOnL s pat).length ≠ 1 := by
    simpa [strContainsL] using h
  have h0 : (splitOnL s pat).length ≠ 0 := by
    simpa [List.length_eq_zero] using splitOnL_ne_nil s pat
  omega

/-! ## Matchup parsing (features.py get_opponent / get_team,
realtime_features.py extract_opponent) -/

/-- The literal pattern vs. (no surrounding spaces) used by the membership
tests in the source. -/
def vsDot : List Char := ("vs.").toList

/-- The spaced separator used by the split calls. -/
def vsSep : List Char := (" vs. ").toList

/-- The away-game separator, identical in the membership test and the split. -/
def atSep : List Char := (" @ ").toList

/-- The sentinel returned when no separator is recognised. -/
def unkTeam : List Char := ("UNK").toList

/-- features.py get_opponent.  The Python code tests for the substring vs.
but splits on the spaced separator and indexes element 1; the none result
models the IndexError raised when the spaced separator is absent while the
unspaced pattern is present. -/
def get_opponent (matchup : List Char) : Option (List Char) :=
  if strContainsL matchup vsDot then (splitOnL matchup vsSep)[1]?
  else if strContainsL matchup atSep then (splitOnL matchup atSep)[1]?
  else some unkTeam

/-- features.py get_team: element 0 of the same splits. -/
def get_team (matchup : List Char) : Option (List Char) :=
  if strContainsL matchup vsDot then (splitOnL matchup vsSep)[0]?
  else if strContainsL matchup atSep then (splitOnL matchup atSep)[0]?
  else some unkTeam

/-- realtime_features.py extract_opponent, textually the same logic as
get_opponent. -/
def extract_opponent (matchup : List Char) : Option (List Char) :=
  if strContainsL matchup vsDot then (splitOnL matchup vsSep)[1]?
  else if strContainsL matchup atSep then (splitOnL matchup atSep)[1]?
  else some unkTeam

/-- The IS_HOME flag of process_data: 1 when the matchup contains vs. . -/
def isHomeOf (matchup : List Char) : ℚ :=
  if strContainsL matchup vsDot then 1 else 0

/-! ## Numeric helpers: pandas means, sample variances, shifted windows -/

/-- Mean of a list of rationals (sum divided by length). -/
def qmean (xs : List ℚ) : ℚ := xs.sum / (xs.length : ℚ)

/-- Sample variance with ddof 1, the square of the pandas std. -/
def qvar (xs : List ℚ) : ℚ :=
  ((xs.map fun x => (x - qmean xs) ^ 2).sum) / ((xs.length : ℚ) - 1)

/-- The last n elements of a list (the trailing window). -/
def lastN (n : Nat) (xs : List ℚ) : List ℚ := xs.drop (xs.length - n)

/-- Rolling mean over the trailing window of size w of the prior observations,
defined only when at least m observations are present: the semantics of
x.shift(1).rolling(w, min_periods equal m).mean() evaluated at one position,
as a function of the list of strictly prior values. -/
def rollOfPrior (w m : Nat) (prior : List ℚ) : Option ℚ :=
  if m ≤ (lastN w prior).length then some (qmean (lastN w prior)) else none

/-- The same rolling mean as a function of the full group series xs and the
position n of the row inside its group; only xs.take n (the strictly prior
values) is inspected. -/
def rollShiftMean (w m : Nat) (xs : List ℚ) (n : Nat) : Option ℚ :=
  rollOfPrior w m (xs.take n)

/-- Rolling sample variance (squared std) over the trailing window, with the
same definedness rule as rollOfPrior. -/
def rollVarOfPrior (w m : Nat) (prior : List ℚ) : Option ℚ :=
  if m ≤ (lastN w prior).length then some (qvar (lastN w prior)) else none

/-- x.shift(1).rolling(w, min_periods equal m).std() squared, at position n. -/
def rollShiftVar (w m : Nat) (xs : List ℚ) (n : Nat) : Option ℚ :=
  rollVarOfPrior w m (xs.take n)

/-- Expanding mean of the prior observations: x.shift(1).expanding().mean(),
defined as soon as one prior observation exists (min_periods default 1). -/
def expOfPrior (prior : List ℚ) : Option ℚ :=
  if 1 ≤ prior.length then some (qmean prior) else none

/-- The expanding mean at position n of its group series. -/
def expShiftMean (xs : List ℚ) (n : Nat) : Option ℚ :=
  expOfPrior (xs.take n)

/-- groupby(...)[GAME_DATE].diff() at one position: the difference between the
last two entries of the first n+1 group values, none at the first row. -/
def diffOfPrior (xs : List ℚ) : Option ℚ :=
  if 2 ≤ xs.length then some (xs.getD (xs.length - 1) 0 - xs.getD (xs.length - 2) 0)
  else none

/-- NaN-propagating subtraction of two feature columns. -/
def osub (a b : Option ℚ) : Option ℚ :=
  match a, b with
  | some x, some y => some (x - y)
  | _, _ => none

/-- NaN-propagating division with the additive offset 0.1 in the denominator,
the idiom a / (b + 0.1) of the source. -/
def odivOff (a b : Option ℚ) : Option ℚ :=
  match a, b with
  | some x, some y => some (x / (y + 1 / 10))
  | _, _ => none

/-! ## The game record (one row of the raw log) -/

/-- One row of the raw game log after the initial date parsing of
process_data.  idx is the positional index assigned by reset_index after the
first sort; opponent, team and isHome are the derived columns attached by the
apply calls (filled in by parseGame below).  The PLAYER_NAME metadata column
plays no role in any claim and is omitted.  wl models the WL column, true for
the string W. -/
structure Game where
  idx : Nat
  playerId : Nat
  date : ℤ
  matchup : List Char
  opponent : List Char
  team : List Char
  isHome : ℚ
  minutes : ℚ
  pts : ℚ
  reb : ℚ
  ast : ℚ
  fga : ℚ
  fgPct : ℚ
  fg3m : ℚ
  fg3Pct : ℚ
  fta : ℚ
  wl : Bool
  plusMinus : ℚ
deriving DecidableEq

/-- Default game used as the out-of-range placeholder of List.getD. -/
def g0 : Game :=
  { idx := 0, playerId := 0, date := 0, matchup := [], opponent := [], team := []
    isHome := 0, minutes := 0, pts := 0, reb := 0, ast := 0, fga := 0, fgPct := 0
    fg3m := 0, fg3Pct := 0, fta := 0, wl := false, plusMinus := 0 }

/-- The per-row derived-column pass of process_data: attach OPPONENT, TEAM and
IS_HOME computed from the matchup string; none models the IndexError that
get_opponent or get_team raises on a malformed matchup. -/
def parseGame (g : Game) : Option Game :=
  match get_opponent g.matchup, get_team g.matchup with
  | some o, some t =>
      some { g with opponent := o, team := t, isHome := isHomeOf g.matchup }
  | _, _ => none

/-- parseGame mapped over the table; the whole run aborts on the first
malformed matchup, as the Python script would. -/
def parseTable : List Game → Option (List Game)
  | [] => some []
  | g :: gs =>
    match parseGame g, parseTable gs with
    | some g2, some gs2 => some (g2 :: gs2)
    | _, _ => none

/-! ## Sort passes.  pandas sort_values is modelled by the stable insertion
sort of Mathlib; each sort key is a boolean lexicographic comparison. -/

/-- Lexicographic boolean order on char lists (Python string comparison),
used only to order team codes inside a sort key. -/
def lexLe : List Char → List Char → Bool
  | [], _ => true
  | _ :: _, [] => false
  | a :: as, b :: bs =>
    if a = b then lexLe as bs else decide (a < b)

/-- sort_values([Player_ID, GAME_DATE]). -/
def pdLeB (a b : Game) : Bool :=
  if a.playerId = b.playerId then decide (a.date ≤ b.date)
  else decide (a.playerId < b.playerId)

def pdLe (a b : Game) : Prop := pdLeB a b = true

instance : DecidableRel pdLe := fun a b => by unfold pdLe; infer_instance

/-- sort_values([OPPONENT, GAME_DATE]). -/
def odLeB (a b : Game) : Bool :=
  if a.opponent = b.opponent then decide (a.date ≤ b.date)
  else lexLe a.opponent b.opponent

def odLe (a b : Game) : Prop := odLeB a b = true

instance : DecidableRel odLe := fun a b => by unfold odLe; infer_instance

/-- Ascending date order, the realtime sort key. -/
def dLe (a b : Game) : Prop := (decide (a.date ≤ b.date)) = true

instance : DecidableRel dLe := fun a b => by unfold dLe; infer_instance

def sortPlayerDate (gs : List Game) : List Game := gs.insertionSort pdLe

def sortOppDate (gs : List Game) : List Game := gs.insertionSort odLe

def sortDate (gs : List Game) : List Game := gs.insertionSort dLe

/-! ## The grouped-transform idiom.  groupby(key)[stat].transform(lambda x:
f(x, position)) attaches, to the row at list position i, the value of f on the
full ordered series of its group together with the number of group rows that
occur strictly before position i. -/

/-- Value attached to a row with group key k at list position i by a grouped
transform of the statistic stat under the window function f. -/
def kFeat {K : Type} [DecidableEq K] (key : Game → K) (k : K) (stat : Game → ℚ)
    (f : List ℚ → Nat → Option ℚ) (gs : List Game) (i : Nat) : Option ℚ :=
  f ((gs.filter fun s => key s = k).map stat) ((gs.take i).countP fun s => key s = k)

/-- groupby(Player_ID)[GAME_DATE].diff() attached to the row of player pid at
list position i, in integer days cast to a rational. -/
def dFeat (gs : List Game) (i : Nat) (pid : Nat) : Option ℚ :=
  diffOfPrior
    ((((gs.filter fun s => s.playerId = pid).map fun s => ((s.date : ℚ))).take
      (((gs.take i).countP fun s => s.playerId = pid) + 1)))

/-! ## The batch feature row and the feature calculator of process_data -/

/-- One row of the materialized feature table: the underlying game plus every
engineered column that some claim mentions.  Std columns hold the sample
variance (see the header).  b2b, rested and wlBin are the integer-cast flags,
which pandas makes total (a NaN comparison yields 0). -/
structure BRow where
  g : Game
  l5pts : Option ℚ
  l10pts : Option ℚ
  seasonAvgPts : Option ℚ
  l5reb : Option ℚ
  l10reb : Option ℚ
  l5ast : Option ℚ
  l10ast : Option ℚ
  l10ptsStd : Option ℚ
  l10rebStd : Option ℚ
  l10astStd : Option ℚ
  trendPts : Option ℚ
  trendReb : Option ℚ
  trendAst : Option ℚ
  l5min : Option ℚ
  l10min : Option ℚ
  l5fga : Option ℚ
  l5fta : Option ℚ
  usageRate : Option ℚ
  ftRate : Option ℚ
  ppm5 : Option ℚ
  ppm10 : Option ℚ
  restDays : Option ℚ
  daysSince : Option ℚ
  b2b : ℚ
  rested : ℚ
  l5fgPct : Option ℚ
  l5fg3Pct : Option ℚ
  l5fg3m : Option ℚ
  vsOppPts : Option ℚ
  vsOppReb : Option ℚ
  vsOppAst : Option ℚ
  oppDefPts : Option ℚ
  oppDefReb : Option ℚ
  oppDefAst : Option ℚ
  oppPace : Option ℚ
  teamPace : Option ℚ
  wlBin : ℚ
  l5WinPct : Option ℚ
  l5PlusMinus : Option ℚ

/-- All feature columns of process_data evaluated for the row at list position
i (holding game g) of the table gs, which is in (Player_ID, GAME_DATE) order.
Player-scoped and matchup-scoped transforms group directly over gs; the
opponent-scoped tier first re-sorts the table by (OPPONENT, GAME_DATE) and the
row re-joins its own transformed value through its unique idx, which models
the sort / transform / sort-back sequence of the source (TEAM_PACE and the
tier 8 and 9 transforms are taken over the player/date order, where the
source computes them).  The sort-back is modelled as a re-join by idx, which
agrees with the source whenever row keys are distinct; pandas sort_values with
its default unstable quicksort leaves tie order unspecified anyway. -/
def bRowAt (gs : List Game) (i : Nat) (g : Game) : BRow :=
  { g := g
    l5pts := kFeat (fun s => s.playerId) g.playerId (fun s => s.pts) (rollShiftMean 5 3) gs i
    l10pts := kFeat (fun s => s.playerId) g.playerId (fun s => s.pts) (rollShiftMean 10 5) gs i
    seasonAvgPts := kFeat (fun s => s.playerId) g.playerId (fun s => s.pts) expShiftMean gs i
    l5reb := kFeat (fun s => s.playerId) g.playerId (fun s => s.reb) (rollShiftMean 5 3) gs i
    l10reb := kFeat (fun s => s.playerId) g.playerId (fun s => s.reb) (rollShiftMean 10 5) gs i
    l5ast := kFeat (fun s => s.playerId) g.playerId (fun s => s.ast) (rollShiftMean 5 3) gs i
    l10ast := kFeat (fun s => s.playerId) g.playerId (fun s => s.ast) (rollShiftMean 10 5) gs i
    l10ptsStd := kFeat (fun s => s.playerId) g.playerId (fun s => s.pts) (rollShiftVar 10 5) gs i
    l10rebStd := kFeat (fun s => s.playerId) g.playerId (fun s => s.reb) (rollShiftVar 10 5) gs i
    l10astStd := kFeat (fun s => s.playerId) g.playerId (fun s => s.ast) (rollShiftVar 10 5) gs i
    trendPts := osub (kFeat (fun s => s.playerId) g.playerId (fun s => s.pts) (rollShiftMean 5 3) gs i)
      (kFeat (fun s => s.playerId) g.playerId (fun s => s.pts) (rollShiftMean 10 5) gs i)
    trendReb := osub (kFeat (fun s => s.playerId) g.playerId (fun s => s.reb) (rollShiftMean 5 3) gs i)
      (kFeat (fun s => s.playerId) g.playerId (fun s => s.reb) (rollShiftMean 10 5) gs i)
    trendAst := osub (kFeat (fun s => s.playerId) g.playerId (fun s => s.ast) (rollShiftMean 5 3) gs i)
      (kFeat (fun s => s.playerId) g.playerId (fun s => s.ast) (rollShiftMean 10 5) gs i)
    l5min := kFeat (fun s => s.playerId) g.playerId (fun s => s.minutes) (rollShiftMean 5 3) gs i
    l10min := kFeat (fun s => s.playerId) g.playerId (fun s => s.minutes) (rollShiftMean 10 5) gs i
    l5fga := kFeat (fun s => s.playerId) g.playerId (fun s => s.fga) (rollShiftMean 5 3) gs i
    l5fta := kFeat (fun s => s.playerId) g.playerId (fun s => s.fta) (rollShiftMean 5 3) gs i
    usageRate := odivOff (kFeat (fun s => s.playerId) g.playerId (fun s => s.fga) (rollShiftMean 5 3) gs i)
      (kFeat (fun s => s.playerId) g.playerId (fun s => s.minutes) (rollShiftMean 5 3) gs i)
    ftRate := odivOff (kFeat (fun s => s.playerId) g.playerId (fun s => s.fta) (rollShiftMean 5 3) gs i)
      (kFeat (fun s => s.playerId) g.playerId (fun s => s.minutes) (rollShiftMean 5 3) gs i)
    ppm5 := odivOff (kFeat (fun s => s.playerId) g.playerId (fun s => s.pts) (rollShiftMean 5 3) gs i)
      (kFeat (fun s => s.playerId) g.playerId (fun s => s.minutes) (rollShiftMean 5 3) gs i)
    ppm10 := odivOff (kFeat (fun s => s.playerId) g.playerId (fun s => s.pts) (rollShiftMean 10 5) gs i)
      (kFeat (fun s => s.playerId) g.playerId (fun s => s.minutes) (rollShiftMean 10 5) gs i)
    restDays := (dFeat gs i g.playerId).map fun d => d - 1
    daysSince := dFeat gs i g.playerId
    b2b := match dFeat gs i g.playerId with
      | some d => if d = 1 then 1 else 0
      | none => 0
    rested := match (dFeat gs i g.playerId).map (fun d => d - 1) with
      | some r => if 2 ≤ r then 1 else 0
      | none => 0
    l5fgPct := kFeat (fun s => s.playerId) g.playerId (fun s => s.fgPct) (rollShiftMean 5 3) gs i
    l5fg3Pct := kFeat (fun s => s.playerId) g.playerId (fun s => s.fg3Pct) (rollShiftMean 5 3) gs i
    l5fg3m := kFeat (fun s => s.playerId) g.playerId (fun s => s.fg3m) (rollShiftMean 5 3) gs i
    vsOppPts := kFeat (fun s => (s.playerId, s.opponent)) (g.playerId, g.opponent)
      (fun s => s.pts) expShiftMean gs i
    vsOppReb := kFeat (fun s => (s.playerId, s.opponent)) (g.playerId, g.opponent)
      (fun s => s.reb) expShiftMean gs i
    vsOppAst := kFeat (fun s => (s.playerId, s.opponent)) (g.playerId, g.opponent)
      (fun s => s.ast) expShiftMean gs i
    oppDefPts := kFeat (fun s => s.opponent) g.opponent (fun s => s.pts) (rollShiftMean 30 5)
      (sortOppDate gs) ((sortOppDate gs).findIdx fun r => r.idx = g.idx)
    oppDefReb := kFeat (fun s => s.opponent) g.opponent (fun s => s.reb) (rollShiftMean 30 5)
      (sortOppDate gs) ((sortOppDate gs).findIdx fun r => r.idx = g.idx)
    oppDefAst := kFeat (fun s => s.opponent) g.opponent (fun s => s.ast) (rollShiftMean 30 5)
      (sortOppDate gs) ((sortOppDate gs).findIdx fun r => r.idx = g.idx)
    oppPace := kFeat (fun s => s.opponent) g.opponent (fun s => s.fga) (rollShiftMean 20 5)
      (sortOppDate gs) ((sortOppDate gs).findIdx fun r => r.idx = g.idx)
    teamPace := kFeat (fun s => s.team) g.team (fun s => s.fga) (rollShiftMean 20 5) gs i
    wlBin := if g.wl then 1 else 0
    l5WinPct := kFeat (fun s => s.playerId) g.playerId
      (fun s => if s.wl then 1 else 0) (rollShiftMean 5 3) gs i
    l5PlusMinus := kFeat (fun s => s.playerId) g.playerId (fun s => s.plusMinus) (rollShiftMean 5 3) gs i }

/-- Tiers 1 through 9 of process_data: every engineered column for every row. -/
def computeFeatures (gs : List Game) : List BRow :=
  gs.enum.map fun p => bRowAt gs p.1 p.2

/-- Default feature row (placeholder of List.getD). -/
def b0 : BRow := bRowAt [] 0 g0

/-! ## Validity filter and missing-data stages of process_data (working on the
already-computed feature rows, in the order the source applies them: the
filter and clip run AFTER feature engineering). -/

/-- The row-survival predicate of clean_outliers on the finite raw
statistics: MIN above 5 and PTS, REB, AST below their impossibility bounds. -/
def keepRow (b : BRow) : Bool :=
  decide (5 < b.g.minutes) && decide (b.g.pts < 70) &&
  decide (b.g.reb < 30) && decide (b.g.ast < 25)

/-- The REST_DAYS clip of clean_outliers: clip(0, 7) applied to the one
column the function clips.  The replace-infinity step of clean_outliers is
the identity here because every cell of this rational-valued pipeline is
finite or NaN; its full semantics on extended values is proved separately on
clean_outliers below. -/
def clipRestRow (b : BRow) : BRow :=
  { b with restDays := b.restDays.map fun r => max 0 (min 7 r) }

/-- clean_outliers as it acts inside process_data. -/
def cleanStage (bs : List BRow) : List BRow :=
  (bs.filter keepRow).map clipRestRow

/-- Mean of the defined entries of a column slice; none when every entry is
missing (pandas fillna(x.mean()) leaves all-NaN groups unfilled). -/
def omeanOfSomes (xs : List ℚ) : Option ℚ :=
  if xs.length = 0 then none else some (qmean xs)

/-- The opponent-metric fill: each of the four OPP_ columns is filled, within
its OPPONENT group, by the group mean of the defined entries. -/
def fillOppDef (bs : List BRow) : List BRow :=
  bs.map fun b =>
    { b with
      oppDefPts := match b.oppDefPts with
        | some v => some v
        | none => omeanOfSomes ((bs.filter fun c => c.g.opponent = b.g.opponent).filterMap fun c => c.oppDefPts)
      oppDefReb := match b.oppDefReb with
        | some v => some v
        | none => omeanOfSomes ((bs.filter fun c => c.g.opponent = b.g.opponent).filterMap fun c => c.oppDefReb)
      oppDefAst := match b.oppDefAst with
        | some v => some v
        | none => omeanOfSomes ((bs.filter fun c => c.g.opponent = b.g.opponent).filterMap fun c => c.oppDefAst)
      oppPace := match b.oppPace with
        | some v => some v
        | none => omeanOfSomes ((bs.filter fun c => c.g.opponent = b.g.opponent).filterMap fun c => c.oppPace) }

/-- The matchup-history fill of one row: VS_OPP_AVG_PTS falls back to the
season-to-date mean, VS_OPP_AVG_REB and VS_OPP_AVG_AST to the trailing-10
means (fillna of one column by another is elementwise). -/
def fillVsOppRow (b : BRow) : BRow :=
  { b with
    vsOppPts := match b.vsOppPts with
      | some v => some v
      | none => b.seasonAvgPts
    vsOppReb := match b.vsOppReb with
      | some v => some v
      | none => b.l10reb
    vsOppAst := match b.vsOppAst with
      | some v => some v
      | none => b.l10ast }

def fillVsOpp (bs : List BRow) : List BRow := bs.map fillVsOppRow

/-- The critical-feature membership test of the final dropna. -/
def criticalOk (b : BRow) : Bool :=
  b.l10pts.isSome && b.l10min.isSome && b.restDays.isSome && b.oppDefPts.isSome

/-- dropna(subset equal critical_features). -/
def dropCritical (bs : List BRow) : List BRow := bs.filter criticalOk

/-- The missing-value and validation phase of process_data, applied after the
feature tiers. -/
def batchStages (gs : List Game) : List BRow :=
  dropCritical (fillVsOpp (fillOppDef (cleanStage (computeFeatures gs))))

/-- Assign the positional index of reset_index. -/
def reindex (gs : List Game) : List Game :=
  gs.enum.map fun p => { p.2 with idx := p.1 }

/-- process_data end to end on an in-memory table: sort by player and date,
reset the index, attach the parsed matchup columns, run the feature tiers,
then clean_outliers, the fallback fills and the critical dropna.  The result
is none when some matchup string makes get_opponent or get_team raise. -/
def process_data (raws : List Game) : Option (List BRow) :=
  match parseTable (reindex (sortPlayerDate raws)) with
  | none => none
  | some gs => some (batchStages gs)

/-! ## Realtime feature assembly (realtime_features.py) -/

/-- The flat feature dictionary built by calculate_realtime_features.  Every
value is a plain rational: with at least five games every formula is total.
Std entries hold the sample variance, as in the batch row. -/
structure RTF where
  l5pts : ℚ
  l10pts : ℚ
  seasonAvgPts : ℚ
  l10ptsStd : ℚ
  trendPts : ℚ
  l5reb : ℚ
  l10reb : ℚ
  l10rebStd : ℚ
  trendReb : ℚ
  l5ast : ℚ
  l10ast : ℚ
  l10astStd : ℚ
  trendAst : ℚ
  l5min : ℚ
  l10min : ℚ
  l5fga : ℚ
  l5fta : ℚ
  usageRate : ℚ
  ftRate : ℚ
  ppm5 : ℚ
  ppm10 : ℚ
  l5fgPct : ℚ
  l5fg3Pct : ℚ
  l5fg3m : ℚ
  isHome : ℚ
  restDays : ℚ
  b2b : ℚ
  rested : ℚ
  vsOppPts : ℚ
  vsOppReb : ℚ
  vsOppAst : ℚ
  oppDefPts : ℚ
  oppDefReb : ℚ
  oppDefAst : ℚ
  oppPace : ℚ
  teamPace : ℚ
  l5WinPct : ℚ
  l5PlusMinus : ℚ

/-- The body of calculate_realtime_features on the date-ascending frame df
(the OPPONENT column is the parsed opponent field of each game).  tail(k) is
lastN k; the len(df) at least 10 tests guard the L10 variants; matchup
history falls back to the overall averages when the window holds no game
against the opponent; the three OPP_DEF constants are the hard-coded league
averages of the source. -/
def rtCore (df : List Game) (opponent : List Char) (isHome : ℚ) (restDays : ℚ) : RTF :=
  { l5pts := qmean (lastN 5 (df.map fun s => s.pts))
    l10pts := if 10 ≤ df.length then qmean (lastN 10 (df.map fun s => s.pts))
      else qmean (df.map fun s => s.pts)
    seasonAvgPts := qmean (df.map fun s => s.pts)
    l10ptsStd := if 10 ≤ df.length then qvar (lastN 10 (df.map fun s => s.pts))
      else qvar (df.map fun s => s.pts)
    trendPts := qmean (lastN 5 (df.map fun s => s.pts)) -
      (if 10 ≤ df.length then qmean (lastN 10 (df.map fun s => s.pts))
       else qmean (df.map fun s => s.pts))
    l5reb := qmean (lastN 5 (df.map fun s => s.reb))
    l10reb := if 10 ≤ df.length then qmean (lastN 10 (df.map fun s => s.reb))
      else qmean (df.map fun s => s.reb)
    l10rebStd := if 10 ≤ df.length then qvar (lastN 10 (df.map fun s => s.reb))
      else qvar (df.map fun s => s.reb)
    trendReb := qmean (lastN 5 (df.map fun s => s.reb)) -
      (if 10 ≤ df.length then qmean (lastN 10 (df.map fun s => s.reb))
       else qmean (df.map fun s => s.reb))
    l5ast := qmean (lastN 5 (df.map fun s => s.ast))
    l10ast := if 10 ≤ df.length then qmean (lastN 10 (df.map fun s => s.ast))
      else qmean (df.map fun s => s.ast)
    l10astStd := if 10 ≤ df.length then qvar (lastN 10 (df.map fun s => s.ast))
      else qvar (df.map fun s => s.ast)
    trendAst := qmean (lastN 5 (df.map fun s => s.ast)) -
      (if 10 ≤ df.length then qmean (lastN 10 (df.map fun s => s.ast))
       else qmean (df.map fun s => s.ast))
    l5min := qmean (lastN 5 (df.map fun s => s.minutes))
    l10min := if 10 ≤ df.length then qmean (lastN 10 (df.map fun s => s.minutes))
      else qmean (df.map fun s => s.minutes)
    l5fga := qmean (lastN 5 (df.map fun s => s.fga))
    l5fta := qmean (lastN 5 (df.map fun s => s.fta))
    usageRate := qmean (lastN 5 (df.map fun s => s.fga)) /
      (qmean (lastN 5 (df.map fun s => s.minutes)) + 1 / 10)
    ftRate := qmean (lastN 5 (df.map fun s => s.fta)) /
      (qmean (lastN 5 (df.map fun s => s.minutes)) + 1 / 10)
    ppm5 := qmean (lastN 5 (df.map fun s => s.pts)) /
      (qmean (lastN 5 (df.map fun s => s.minutes)) + 1 / 10)
    ppm10 := (if 10 ≤ df.length then qmean (lastN 10 (df.map fun s => s.pts))
        else qmean (df.map fun s => s.pts)) /
      ((if 10 ≤ df.length then qmean (lastN 10 (df.map fun s => s.minutes))
        else qmean (df.map fun s => s.minutes)) + 1 / 10)
    l5fgPct := qmean (lastN 5 (df.map fun s => s.fgPct))
    l5fg3Pct := qmean (lastN 5 (df.map fun s => s.fg3Pct))
    l5fg3m := qmean (lastN 5 (df.map fun s => s.fg3m))
    isHome := isHome
    restDays := min restDays 7
    b2b := if restDays = 0 then 1 else 0
    rested := if 2 ≤ restDays then 1 else 0
    vsOppPts := if 0 < (df.filter fun s => s.opponent = opponent).length
      then qmean ((df.filter fun s => s.opponent = opponent).map fun s => s.pts)
      else qmean (df.map fun s => s.pts)
    vsOppReb := if 0 < (df.filter fun s => s.opponent = opponent).length
      then qmean ((df.filter fun s => s.opponent = opponent).map fun s => s.reb)
      else if 10 ≤ df.length then qmean (lastN 10 (df.map fun s => s.reb))
      else qmean (df.map fun s => s.reb)
    vsOppAst := if 0 < (df.filter fun s => s.opponent = opponent).length
      then qmean ((df.filter fun s => s.opponent = opponent).map fun s => s.ast)
      else if 10 ≤ df.length then qmean (lastN 10 (df.map fun s => s.ast))
      else qmean (df.map fun s => s.ast)
    oppDefPts := 15
    oppDefReb := 11 / 2
    oppDefAst := 7 / 2
    oppPace := if 10 ≤ df.length then qmean (lastN 10 (df.map fun s => s.fga))
      else qmean (df.map fun s => s.fga)
    teamPace := if 10 ≤ df.length then qmean (lastN 10 (df.map fun s => s.fga))
      else qmean (df.map fun s => s.fga)
    l5WinPct := qmean (lastN 5 (df.map fun s => if s.wl then 1 else 0))
    l5PlusMinus := qmean (lastN 5 (df.map fun s => s.plusMinus)) }

/-- calculate_realtime_features: none (the insufficient-data signal) when
fewer than five games were supplied, otherwise the features computed on the
frame re-sorted to ascending date order. -/
def calculate_realtime_features (games : List Game) (opponent : List Char)
    (isHome : ℚ) (restDays : ℚ) : Option RTF :=
  if games.length < 5 then none
  else some (rtCore (sortDate games) opponent isHome restDays)

/-! ## Feature contract lists.  POINTS_FEATURES, REBOUNDS_FEATURES and
ASSISTS_FEATURES are the lists of train.py; the rt lists are the literal
key lists of the three dictionary comprehensions in
get_realtime_prediction_features. -/

def POINTS_FEATURES : List String :=
  ["L5_PTS", "L10_PTS", "SEASON_AVG_PTS", "L10_PTS_STD", "RECENT_TREND_PTS",
   "IS_HOME", "REST_DAYS", "IS_BACK_TO_BACK", "IS_RESTED",
   "L5_MIN", "L10_MIN", "USAGE_RATE", "FT_RATE", "PPM_L5", "PPM_L10",
   "L5_FG_PCT", "L5_FG3_PCT", "L5_FG3M",
   "L5_REB", "L5_AST",
   "VS_OPP_AVG_PTS", "OPP_DEF_STRENGTH_PTS", "OPP_PACE", "TEAM_PACE",
   "L5_WIN_PCT", "L5_PLUS_MINUS"]

def REBOUNDS_FEATURES : List String :=
  ["L5_REB", "L10_REB", "L10_REB_STD", "RECENT_TREND_REB",
   "IS_HOME", "REST_DAYS", "IS_BACK_TO_BACK", "IS_RESTED",
   "L5_MIN", "L10_MIN", "USAGE_RATE",
   "L5_PTS", "L5_AST",
   "VS_OPP_AVG_REB", "OPP_DEF_STRENGTH_REB", "OPP_PACE", "TEAM_PACE",
   "L5_WIN_PCT", "L5_PLUS_MINUS"]

def ASSISTS_FEATURES : List String :=
  ["L5_AST", "L10_AST", "L10_AST_STD", "RECENT_TREND_AST",
   "IS_HOME", "REST_DAYS", "IS_BACK_TO_BACK", "IS_RESTED",
   "L5_MIN", "L10_MIN", "USAGE_RATE",
   "L5_PTS", "L5_REB",
   "VS_OPP_AVG_AST", "OPP_DEF_STRENGTH_AST", "OPP_PACE", "TEAM_PACE",
   "L5_WIN_PCT", "L5_PLUS_MINUS"]

def rtPtsKeys : List String :=
  ["L5_PTS", "L10_PTS", "SEASON_AVG_PTS", "L10_PTS_STD", "RECENT_TREND_PTS",
   "IS_HOME", "REST_DAYS", "IS_BACK_TO_BACK", "IS_RESTED",
   "L5_MIN", "L10_MIN", "USAGE_RATE", "FT_RATE", "PPM_L5", "PPM_L10",
   "L5_FG_PCT", "L5_FG3_PCT", "L5_FG3M",
   "L5_REB", "L5_AST",
   "VS_OPP_AVG_PTS", "OPP_DEF_STRENGTH_PTS", "OPP_PACE", "TEAM_PACE",
   "L5_WIN_PCT", "L5_PLUS_MINUS"]

def rtRebKeys : List String :=
  ["L5_REB", "L10_REB", "L10_REB_STD", "RECENT_TREND_REB",
   "IS_HOME", "REST_DAYS", "IS_BACK_TO_BACK", "IS_RESTED",
   "L5_MIN", "L10_MIN", "USAGE_RATE",
   "L5_PTS", "L5_AST",
   "VS_OPP_AVG_REB", "OPP_DEF_STRENGTH_REB", "OPP_PACE", "TEAM_PACE",
   "L5_WIN_PCT", "L5_PLUS_MINUS"]

def rtAstKeys : List String :=
  ["L5_AST", "L10_AST", "L10_AST_STD", "RECENT_TREND_AST",
   "IS_HOME", "REST_DAYS", "IS_BACK_TO_BACK", "IS_RESTED",
   "L5_MIN", "L10_MIN", "USAGE_RATE",
   "L5_PTS", "L5_REB",
   "VS_OPP_AVG_AST", "OPP_DEF_STRENGTH_AST", "OPP_PACE", "TEAM_PACE",
   "L5_WIN_PCT", "L5_PLUS_MINUS"]

/-- Dictionary access features[k] on the flat realtime dictionary; every key
used by the three comprehensions is present, so the default branch is
unreachable for them. -/
def featLookup (f : RTF) : String → ℚ
  | "L5_PTS" => f.l5pts
  | "L10_PTS" => f.l10pts
  | "SEASON_AVG_PTS" => f.seasonAvgPts
  | "L10_PTS_STD" => f.l10ptsStd
  | "RECENT_TREND_PTS" => f.trendPts
  | "L5_REB" => f.l5reb
  | "L10_REB" => f.l10reb
  | "L10_REB_STD" => f.l10rebStd
  | "RECENT_TREND_REB" => f.trendReb
  | "L5_AST" => f.l5ast
  | "L10_AST" => f.l10ast
  | "L10_AST_STD" => f.l10astStd
  | "RECENT_TREND_AST" => f.trendAst
  | "L5_MIN" => f.l5min
  | "L10_MIN" => f.l10min
  | "L5_FGA" => f.l5fga
  | "L5_FTA" => f.l5fta
  | "USAGE_RATE" => f.usageRate
  | "FT_RATE" => f.ftRate
  | "PPM_L5" => f.ppm5
  | "PPM_L10" => f.ppm10
  | "L5_FG_PCT" => f.l5fgPct
  | "L5_FG3_PCT" => f.l5fg3Pct
  | "L5_FG3M" => f.l5fg3m
  | "IS_HOME" => f.isHome
  | "REST_DAYS" => f.restDays
  | "IS_BACK_TO_BACK" => f.b2b
  | "IS_RESTED" => f.rested
  | "VS_OPP_AVG_PTS" => f.vsOppPts
  | "VS_OPP_AVG_REB" => f.vsOppReb
  | "VS_OPP_AVG_AST" => f.vsOppAst
  | "OPP_DEF_STRENGTH_PTS" => f.oppDefPts
  | "OPP_DEF_STRENGTH_REB" => f.oppDefReb
  | "OPP_DEF_STRENGTH_AST" => f.oppDefAst
  | "OPP_PACE" => f.oppPace
  | "TEAM_PACE" => f.teamPace
  | "L5_WIN_PCT" => f.l5WinPct
  | "L5_PLUS_MINUS" => f.l5PlusMinus
  | _ => 0

/-- One target-scoped dictionary comprehension. -/
def subDict (keys : List String) (f : RTF) : List (String × ℚ) :=
  keys.map fun k => (k, featLookup f k)

/-- get_realtime_prediction_features after the external fetch: the fetched
argument is the result of fetch_recent_games (none when the player cannot be
resolved or no games exist).  The uniform failure value None, None, None,
None of the source is the none here; on success the three target-scoped
dictionaries and the raw recent-games frame are returned. -/
def get_realtime_prediction_features (fetched : Option (List Game))
    (opponent : List Char) (isHome : ℚ) (restDays : ℚ) :
    Option ((List (String × ℚ)) × (List (String × ℚ)) × (List (String × ℚ)) × List Game) :=
  match fetched with
  | none => none
  | some games =>
    match calculate_realtime_features games opponent isHome restDays with
    | none => none
    | some f => some (subDict rtPtsKeys f, subDict rtRebKeys f, subDict rtAstKeys f, games)

/-! ## clean_outliers on extended values (the full validity-filter contract,
including infinities).  A pandas cell is finite, plus or minus infinity, or
NaN; comparisons against NaN are false, as in IEEE semantics. -/

inductive EVal where
  | num (q : ℚ)
  | pinf
  | ninf
  | nan
deriving DecidableEq

/-- Strict greater-than against a rational constant; false on NaN. -/
def EVal.gtB : EVal → ℚ → Bool
  | .num q, c => decide (c < q)
  | .pinf, _ => true
  | .ninf, _ => false
  | .nan, _ => false

/-- Strict less-than against a rational constant; false on NaN. -/
def EVal.ltB : EVal → ℚ → Bool
  | .num q, c => decide (q < c)
  | .pinf, _ => false
  | .ninf, _ => true
  | .nan, _ => false

/-- pandas clip(lo, hi): infinities clip to the bounds, NaN stays NaN. -/
def EVal.clip : EVal → ℚ → ℚ → EVal
  | .num q, lo, hi => .num (max lo (min hi q))
  | .pinf, _, hi => .num hi
  | .ninf, lo, _ => .num lo
  | .nan, _, _ => .nan

/-- replace([inf, -inf], nan) on one cell. -/
def replaceInf : EVal → EVal
  | .pinf => .nan
  | .ninf => .nan
  | v => v

/-- A record as clean_outliers sees it: the four filtered statistics, the
rest-days column it clips, and the remaining numeric cells of the row (all
other columns), which only the infinity replacement touches. -/
structure CRec where
  minutes : EVal
  pts : EVal
  reb : EVal
  ast : EVal
  restDays : EVal
  others : List EVal
deriving DecidableEq

/-- Map the infinity replacement over every numeric cell of a record. -/
def replaceInfRec (r : CRec) : CRec :=
  { minutes := replaceInf r.minutes, pts := replaceInf r.pts
    reb := replaceInf r.reb, ast := replaceInf r.ast
    restDays := replaceInf r.restDays, others := r.others.map replaceInf }

/-- clean_outliers of features.py in source order: keep MIN above 5, then the
three impossibility filters, then clip REST_DAYS to the closed range 0..7,
then replace every infinite cell by NaN. -/
def clean_outliers (rs : List CRec) : List CRec :=
  (((((rs.filter fun r => r.minutes.gtB 5).filter fun r => r.pts.ltB 70).filter
      fun r => r.reb.ltB 30).filter fun r => r.ast.ltB 25).map
    fun r => { r with restDays := r.restDays.clip 0 7 }).map replaceInfRec

/-! ## General lemmas about the grouped-transform machinery -/

theorem filter_take_countP {α : Type} (P : α → Bool) (l : List α) (i : Nat) :
    (l.filter P).take ((l.take i).countP P) = (l.take i).filter P := by
  have h : l.filter P = (l.take i).filter P ++ (l.drop i).filter P := by
    rw [← List.filter_append, List.take_append_drop]
  rw [h, List.countP_eq_length_filter]
  exact List.take_left _ _

theorem take_set {α : Type} (l : List α) (i : Nat) (a : α) :
    (l.set i a).take i = l.take i := by
  apply List.ext_getElem
  · simp
  · intro k hk1 hk2
    simp only [List.getElem_take]
    have hk : k < l.length := by
      simp [List.length_take, List.length_set] at hk1 hk2 ⊢
      omega
    have hne : i ≠ k := by
      simp [List.length_take, List.length_set] at hk1
      omega
    exact List.getElem_set_ne hne _

theorem rollShiftMean_congr (w m : Nat) {xs ys : List ℚ} {n : Nat}
    (h : xs.take n = ys.take n) : rollShiftMean w m xs n = rollShiftMean w m ys n := by
  unfold rollShiftMean; rw [h]

theorem rollShiftVar_congr (w m : Nat) {xs ys : List ℚ} {n : Nat}
    (h : xs.take n = ys.take n) : rollShiftVar w m xs n = rollShiftVar w m ys n := by
  unfold rollShiftVar; rw [h]

theorem expShiftMean_congr {xs ys : List ℚ} {n : Nat}
    (h : xs.take n = ys.take n) : expShiftMean xs n = expShiftMean ys n := by
  unfold expShiftMean; rw [h]

/-- A grouped transform whose window function reads only the strictly prior
part of the series gives the same value at position i over any two tables
with the same first i rows. -/
theorem kFeat_congr {K : Type} [DecidableEq K] (key : Game → K) (k : K)
    (stat : Game → ℚ) (f : List ℚ → Nat → Option ℚ)
    (hf : ∀ xs ys n, xs.take n = ys.take n → f xs n = f ys n)
    (gs gs' : List Game) (i : Nat) (h : gs'.take i = gs.take i) :
    kFeat key k stat f gs' i = kFeat key k stat f gs i := by
  unfold kFeat
  rw [h]
  apply hf
  rw [← List.map_take, ← List.map_take]
  congr 1
  calc (gs'.filter fun s => decide (key s = k)).take
        ((gs.take i).countP fun s => decide (key s = k))
      = (gs'.filter fun s => decide (key s = k)).take
        ((gs'.take i).countP fun s => decide (key s = k)) := by rw [h]
    _ = (gs'.take i).filter fun s => decide (key s = k) := filter_take_countP _ _ _
    _ = (gs.take i).filter fun s => decide (key s = k) := by rw [h]
    _ = (gs.filter fun s => decide (key s = k)).take
        ((gs.take i).countP fun s => decide (key s = k)) := (filter_take_countP _ _ _).symm

/-- A grouped transform over a table whose rows all carry the group key k
degenerates to the window function on the full column at the raw position. -/
theorem kFeat_const {K : Type} [DecidableEq K] (key : Game → K) (k : K)
    (stat : Game → ℚ) (f : List ℚ → Nat → Option ℚ) (gs : List Game) (i : Nat)
    (hall : ∀ g ∈ gs, key g = k) (hi : i ≤ gs.length) :
    kFeat key k stat f gs i = f (gs.map stat) i := by
  unfold kFeat
  have h1 : (gs.filter fun s => decide (key s = k)) = gs := by
    apply List.filter_eq_self.mpr
    intro a ha
    simpa using hall a ha
  have h2 : ((gs.take i).countP fun s => decide (key s = k)) = i := by
    rw [List.countP_eq_length.mpr, List.length_take]
    · omega
    · intro a ha
      have : a ∈ gs := List.mem_of_mem_take ha
      simpa using hall a this
  rw [h1, h2]

theorem computeFeatures_length (gs : List Game) :
    (computeFeatures gs).length = gs.length := by
  simp [computeFeatures]

theorem computeFeatures_getD (gs : List Game) (i : Nat) (h : i < gs.length) :
    (computeFeatures gs).getD i b0 = bRowAt gs i (gs.getD i g0) := by
  have hlen : i < (computeFeatures gs).length := by
    rw [computeFeatures_length]; exact h
  rw [List.getD_eq_getElem _ _ hlen, List.getD_eq_getElem _ _ h]
  simp [computeFeatures]

theorem length_lastN (w : Nat) (xs : List ℚ) : (lastN w xs).length = min w xs.length := by
  simp [lastN]
  omega

theorem rollShiftMean_isSome_iff (w m : Nat) (xs : List ℚ) (n : Nat)
    (hn : n ≤ xs.length) (hmw : m ≤ w) :
    (rollShiftMean w m xs n).isSome ↔ m ≤ n := by
  unfold rollShiftMean rollOfPrior
  have hlen : (lastN w (xs.take n)).length = min w n := by
    rw [length_lastN, List.length_take]
    omega
  rw [hlen]
  constructor
  · intro h
    by_contra hc
    rw [if_neg (by omega)] at h
    simp at h
  · intro h
    rw [if_pos (by omega)]
    simp

theorem rollShiftVar_isSome_iff (w m : Nat) (xs : List ℚ) (n : Nat)
    (hn : n ≤ xs.length) (hmw : m ≤ w) :
    (rollShiftVar w m xs n).isSome ↔ m ≤ n := by
  unfold rollShiftVar rollVarOfPrior
  have hlen : (lastN w (xs.take n)).length = min w n := by
    rw [length_lastN, List.length_take]
    omega
  rw [hlen]
  constructor
  · intro h
    by_contra hc
    rw [if_neg (by omega)] at h
    simp at h
  · intro h
    rw [if_pos (by omega)]
    simp

theorem countP_le_length_filter {α : Type} (P : α → Bool) (l : List α) (i : Nat) :
    (l.take i).countP P ≤ (l.filter P).length := by
  rw [← List.countP_eq_length_filter]
  have h : l.countP P = (l.take i).countP P + (l.drop i).countP P := by
    conv_lhs => rw [← List.take_append_drop i l]
    rw [List.countP_append]
  omega

/-! ## Claim C1: the shift-by-one leakage guard -/

/-- The rolling, expanding and matchup features of one row that claim C1
quantifies over: every L5 and L10 mean, the L10 variances (squared stds),
SEASON_AVG_PTS, and the three VS_OPP averages both as computed and after
their fallback fill. -/
def leakFeatures (b : BRow) : List (Option ℚ) :=
  [b.l5pts, b.l10pts, b.seasonAvgPts, b.l5reb, b.l10reb, b.l5ast, b.l10ast,
   b.l10ptsStd, b.l10rebStd, b.l10astStd, b.l5min, b.l10min, b.l5fga, b.l5fta,
   b.l5fgPct, b.l5fg3Pct, b.l5fg3m, b.l5WinPct, b.l5PlusMinus,
   b.vsOppPts, b.vsOppReb, b.vsOppAst,
   (fillVsOppRow b).vsOppPts, (fillVsOppRow b).vsOppReb, (fillVsOppRow b).vsOppAst]

/-- C1 (leakage guard): in a table sorted ascending by player and date,
replacing the statistics of the game at row i by arbitrary values, while
keeping its identity, date and matchup-derived fields, leaves every rolling,
expanding and matchup feature computed at row i unchanged: those features
are functions of the strictly earlier rows only. -/
theorem c1_leakage_guard (gs : List Game) (g2 : Game) (i : Nat)
    (hi : i < gs.length) (hsorted : List.Sorted pdLe gs)
    (hpid : g2.playerId = (gs.getD i g0).playerId)
    (hdate : g2.date = (gs.getD i g0).date)
    (hmu : g2.matchup = (gs.getD i g0).matchup)
    (hopp : g2.opponent = (gs.getD i g0).opponent)
    (hteam : g2.team = (gs.getD i g0).team) :
    leakFeatures ((computeFeatures (gs.set i g2)).getD i b0) =
      leakFeatures ((computeFeatures gs).getD i b0) := by
  have hi2 : i < (gs.set i g2).length := by rw [List.length_set]; exact hi
  have hset : (gs.set i g2).getD i g0 = g2 := by
    rw [List.getD_eq_getElem _ _ hi2]
    exact List.getElem_set_self hi2
  have htake : (gs.set i g2).take i = gs.take i := take_set gs i g2
  rw [computeFeatures_getD _ _ hi, computeFeatures_getD _ _ hi2, hset]
  have h53 : ∀ stat : Game → ℚ,
      kFeat (fun s => s.playerId) g2.playerId stat (rollShiftMean 5 3) (gs.set i g2) i =
        kFeat (fun s => s.playerId) (gs.getD i g0).playerId stat (rollShiftMean 5 3) gs i := by
    intro stat
    rw [hpid]
    refine kFeat_congr _ _ _ _ ?_ _ _ _ htake
    intro xs ys n h
    exact rollShiftMean_congr 5 3 h
  have h105 : ∀ stat : Game → ℚ,
      kFeat (fun s => s.playerId) g2.playerId stat (rollShiftMean 10 5) (gs.set i g2) i =
        kFeat (fun s => s.playerId) (gs.getD i g0).playerId stat (rollShiftMean 10 5) gs i := by
    intro stat
    rw [hpid]
    refine kFeat_congr _ _ _ _ ?_ _ _ _ htake
    intro xs ys n h
    exact rollShiftMean_congr 10 5 h
  have hvar : ∀ stat : Game → ℚ,
      kFeat (fun s => s.playerId) g2.playerId stat (rollShiftVar 10 5) (gs.set i g2) i =
        kFeat (fun s => s.playerId) (gs.getD i g0).playerId stat (rollShiftVar 10 5) gs i := by
    intro stat
    rw [hpid]
    refine kFeat_congr _ _ _ _ ?_ _ _ _ htake
    intro xs ys n h
    exact rollShiftVar_congr 10 5 h
  have hexp : ∀ stat : Game → ℚ,
      kFeat (fun s => s.playerId) g2.playerId stat expShiftMean (gs.set i g2) i =
        kFeat (fun s => s.playerId) (gs.getD i g0).playerId stat expShiftMean gs i := by
    intro stat
    rw [hpid]
    refine kFeat_congr _ _ _ _ ?_ _ _ _ htake
    intro xs ys n h
    exact expShiftMean_congr h
  have hM : ∀ stat : Game → ℚ,
      kFeat (fun s => (s.playerId, s.opponent)) (g2.playerId, g2.opponent) stat
          expShiftMean (gs.set i g2) i =
        kFeat (fun s => (s.playerId, s.opponent))
          ((gs.getD i g0).playerId, (gs.getD i g0).opponent) stat expShiftMean gs i := by
    intro stat
    rw [hpid, hopp]
    refine kFeat_congr _ _ _ _ ?_ _ _ _ htake
    intro xs ys n h
    exact expShiftMean_congr h
  simp only [leakFeatures, fillVsOppRow, bRowAt]
  simp only [h53, h105, hvar, hexp, hM]

/-- A two-game timeline of one player used by the C1 witness. -/
def c1wA : Game :=
  { g0 with playerId := 7, date := 100, pts := 10, reb := 4, ast := 3, minutes := 30 }

def c1wB : Game :=
  { g0 with playerId := 7, idx := 1, date := 101, pts := 12, reb := 6, ast := 2, minutes := 31 }

/-- The same second game with every statistic altered but identity, date and
matchup-derived fields kept. -/
def c1wB2 : Game :=
  { g0 with
    playerId := 7
    idx := 1
    date := 101
    pts := 55
    reb := 20
    ast := 19
    minutes := 48
    fga := 40
    fta := 20
    wl := true
    plusMinus := 25 }

/-- Witness for C1: discharged at the concrete two-game timeline, altered at
index 1. -/
theorem c1_leakage_guard_witness :
    (1 < ([c1wA, c1wB] : List Game).length) ∧
    leakFeatures ((computeFeatures ([c1wA, c1wB].set 1 c1wB2)).getD 1 b0) =
      leakFeatures ((computeFeatures [c1wA, c1wB]).getD 1 b0) :=
  ⟨by decide,
   c1_leakage_guard [c1wA, c1wB] c1wB2 1 (by decide) (by decide) (by decide)
     (by decide) (by decide) (by decide) (by decide)⟩

/-! ## Claim C6: the minimum-observation boundary -/

/-- Number of games of the same player strictly before row i. -/
def priorCount (gs : List Game) (i : Nat) : Nat :=
  (gs.take i).countP fun s => s.playerId = (gs.getD i g0).playerId

/-- C6 (minimum-observation boundary): a trailing-10 mean or variance at row
i is defined exactly when the player has at least 5 prior games, and a
trailing-5 mean exactly when at least 3; below the threshold the value is
missing (none), not zero and not any unconditional mean. -/
theorem c6_min_observation_boundary (gs : List Game) (i : Nat) (hi : i < gs.length) :
    ((((computeFeatures gs).getD i b0).l5pts).isSome ↔ 3 ≤ priorCount gs i) ∧
    ((((computeFeatures gs).getD i b0).l10pts).isSome ↔ 5 ≤ priorCount gs i) ∧
    ((((computeFeatures gs).getD i b0).l10ptsStd).isSome ↔ 5 ≤ priorCount gs i) ∧
    ((((computeFeatures gs).getD i b0).l5reb).isSome ↔ 3 ≤ priorCount gs i) ∧
    ((((computeFeatures gs).getD i b0).l10reb).isSome ↔ 5 ≤ priorCount gs i) ∧
    ((((computeFeatures gs).getD i b0).l10rebStd).isSome ↔ 5 ≤ priorCount gs i) ∧
    ((((computeFeatures gs).getD i b0).l5ast).isSome ↔ 3 ≤ priorCount gs i) ∧
    ((((computeFeatures gs).getD i b0).l10ast).isSome ↔ 5 ≤ priorCount gs i) ∧
    ((((computeFeatures gs).getD i b0).l10astStd).isSome ↔ 5 ≤ priorCount gs i) ∧
    ((((computeFeatures gs).getD i b0).l5min).isSome ↔ 3 ≤ priorCount gs i) ∧
    ((((computeFeatures gs).getD i b0).l10min).isSome ↔ 5 ≤ priorCount gs i) := by
  rw [computeFeatures_getD _ _ hi]
  have hb : ∀ (stat : Game → ℚ) (w m : Nat), m ≤ w →
      ((kFeat (fun s => s.playerId) (gs.getD i g0).playerId stat (rollShiftMean w m) gs i).isSome
        ↔ m ≤ priorCount gs i) := by
    intro stat w m hmw
    unfold kFeat priorCount
    apply rollShiftMean_isSome_iff
    · rw [List.length_map]
      exact countP_le_length_filter _ _ _
    · exact hmw
  have hbv : ∀ (stat : Game → ℚ) (w m : Nat), m ≤ w →
      ((kFeat (fun s => s.playerId) (gs.getD i g0).playerId stat (rollShiftVar w m) gs i).isSome
        ↔ m ≤ priorCount gs i) := by
    intro stat w m hmw
    unfold kFeat priorCount
    apply rollShiftVar_isSome_iff
    · rw [List.length_map]
      exact countP_le_length_filter _ _ _
    · exact hmw
  simp only [bRowAt]
  exact ⟨hb _ 5 3 (by omega), hb _ 10 5 (by omega), hbv _ 10 5 (by omega),
    hb _ 5 3 (by omega), hb _ 10 5 (by omega), hbv _ 10 5 (by omega),
    hb _ 5 3 (by omega), hb _ 10 5 (by omega), hbv _ 10 5 (by omega),
    hb _ 5 3 (by omega), hb _ 10 5 (by omega)⟩

/-- A six-game timeline of one player (dates 1 to 6). -/
def c6Tl : List Game :=
  [{ g0 with playerId := 3, idx := 0, date := 1, pts := 20 },
   { g0 with playerId := 3, idx := 1, date := 2, pts := 22 },
   { g0 with playerId := 3, idx := 2, date := 3, pts := 18 },
   { g0 with playerId := 3, idx := 3, date := 4, pts := 25 },
   { g0 with playerId := 3, idx := 4, date := 5, pts := 19 },
   { g0 with playerId := 3, idx := 5, date := 6, pts := 21 }]

/-- Witness for C6 at row 5 of the concrete timeline, which has exactly 5
prior observations. -/
theorem c6_min_observation_boundary_witness :
    (5 < c6Tl.length) ∧
    (((((computeFeatures c6Tl).getD 5 b0).l5pts).isSome ↔ 3 ≤ priorCount c6Tl 5) ∧
     ((((computeFeatures c6Tl).getD 5 b0).l10pts).isSome ↔ 5 ≤ priorCount c6Tl 5) ∧
     ((((computeFeatures c6Tl).getD 5 b0).l10ptsStd).isSome ↔ 5 ≤ priorCount c6Tl 5) ∧
     ((((computeFeatures c6Tl).getD 5 b0).l5reb).isSome ↔ 3 ≤ priorCount c6Tl 5) ∧
     ((((computeFeatures c6Tl).getD 5 b0).l10reb).isSome ↔ 5 ≤ priorCount c6Tl 5) ∧
     ((((computeFeatures c6Tl).getD 5 b0).l10rebStd).isSome ↔ 5 ≤ priorCount c6Tl 5) ∧
     ((((computeFeatures c6Tl).getD 5 b0).l5ast).isSome ↔ 3 ≤ priorCount c6Tl 5) ∧
     ((((computeFeatures c6Tl).getD 5 b0).l10ast).isSome ↔ 5 ≤ priorCount c6Tl 5) ∧
     ((((computeFeatures c6Tl).getD 5 b0).l10astStd).isSome ↔ 5 ≤ priorCount c6Tl 5) ∧
     ((((computeFeatures c6Tl).getD 5 b0).l5min).isSome ↔ 3 ≤ priorCount c6Tl 5) ∧
     ((((computeFeatures c6Tl).getD 5 b0).l10min).isSome ↔ 5 ≤ priorCount c6Tl 5)) :=
  ⟨by decide, c6_min_observation_boundary c6Tl 5 (by decide)⟩

/-! ## Pipeline-tracing lemmas for the batch stages -/

theorem parseGame_keeps (g g2 : Game) (h : parseGame g = some g2) :
    g2.idx = g.idx ∧ g2.playerId = g.playerId ∧ g2.date = g.date := by
  unfold parseGame at h
  cases h1 : get_opponent g.matchup with
  | none => rw [h1] at h; simp at h
  | some o =>
    cases h2 : get_team g.matchup with
    | none => rw [h1, h2] at h; simp at h
    | some t =>
      rw [h1, h2] at h
      simp only [Option.some.injEq] at h
      rw [← h]
      exact ⟨rfl, rfl, rfl⟩

theorem parseTable_spec (l l2 : List Game) (h : parseTable l = some l2) :
    l2.length = l.length ∧
      ∀ j, j < l.length → parseGame (l.getD j g0) = some (l2.getD j g0) := by
  induction l generalizing l2 with
  | nil =>
    unfold parseTable at h
    simp only [Option.some.injEq] at h
    subst h
    simp
  | cons g gs ih =>
    unfold parseTable at h
    cases h1 : parseGame g with
    | none => rw [h1] at h; simp at h
    | some gg =>
      cases h2 : parseTable gs with
      | none => rw [h1, h2] at h; simp at h
      | some gs2 =>
        rw [h1, h2] at h
        simp only [Option.some.injEq] at h
        subst h
        obtain ⟨hl, hp⟩ := ih gs2 h2
        refine ⟨by simp [hl], ?_⟩
        intro j hj
        cases j with
        | zero => simpa using h1
        | succ k =>
          simp only [List.getD_cons_succ]
          exact hp k (by simpa using hj)

theorem reindex_length (l : List Game) : (reindex l).length = l.length := by
  simp [reindex]

theorem reindex_getD_idx (l : List Game) (j : Nat) (hj : j < l.length) :
    ((reindex l).getD j g0).idx = j := by
  have hlen : j < (reindex l).length := by rw [reindex_length]; exact hj
  rw [List.getD_eq_getElem _ _ hlen]
  simp [reindex]

/-- In the parsed, reindexed table the idx field of each row is its position. -/
theorem parsed_idx (raws gs : List Game)
    (hparse : parseTable (reindex (sortPlayerDate raws)) = some gs) :
    ∀ j, j < gs.length → (gs.getD j g0).idx = j := by
  obtain ⟨hl, hp⟩ := parseTable_spec _ _ hparse
  intro j hj
  have hj2 : j < (reindex (sortPlayerDate raws)).length := by omega
  obtain ⟨hidx, -, -⟩ := parseGame_keeps _ _ (hp j hj2)
  rw [hidx]
  exact reindex_getD_idx _ j (by rw [← reindex_length (sortPlayerDate raws)]; exact hj2)

/-- Every row of the final batch table passed the critical filter and carries
the feature values computed by the tiers over the FULL parsed table at some
in-range position (the clean and fill stages never touch these columns). -/
theorem batchStages_mem (gs : List Game) (b : BRow) (hb : b ∈ batchStages gs) :
    criticalOk b = true ∧
    ∃ i, i < gs.length ∧
      b.g = (bRowAt gs i (gs.getD i g0)).g ∧
      b.l5pts = (bRowAt gs i (gs.getD i g0)).l5pts ∧
      b.l10pts = (bRowAt gs i (gs.getD i g0)).l10pts ∧
      b.l10min = (bRowAt gs i (gs.getD i g0)).l10min ∧
      b.l5reb = (bRowAt gs i (gs.getD i g0)).l5reb ∧
      b.l5ast = (bRowAt gs i (gs.getD i g0)).l5ast ∧
      b.seasonAvgPts = (bRowAt gs i (gs.getD i g0)).seasonAvgPts := by
  unfold batchStages dropCritical at hb
  rw [List.mem_filter] at hb
  obtain ⟨hb1, hcrit⟩ := hb
  unfold fillVsOpp at hb1
  rw [List.mem_map] at hb1
  obtain ⟨b4, hb4, rfl⟩ := hb1
  unfold fillOppDef at hb4
  rw [List.mem_map] at hb4
  obtain ⟨b3, hb3, rfl⟩ := hb4
  unfold cleanStage at hb3
  rw [List.mem_map] at hb3
  obtain ⟨b2, hb2, rfl⟩ := hb3
  have hb2m : b2 ∈ computeFeatures gs := List.mem_of_mem_filter hb2
  unfold computeFeatures at hb2m
  rw [List.mem_map] at hb2m
  obtain ⟨p, hp, rfl⟩ := hb2m
  obtain ⟨i, g⟩ := p
  have hget : gs[i]? = some g := List.mk_mem_enum_iff_getElem?.mp hp
  have hi : i < gs.length := by
    by_contra hc
    rw [List.getElem?_eq_none (by omega)] at hget
    simp at hget
  have hgeq : gs.getD i g0 = g := by
    rw [List.getD_eq_getElem _ _ hi]
    have h3 := List.getElem?_eq_getElem hi
    rw [h3] at hget
    exact Option.some.inj hget
  refine ⟨hcrit, i, hi, ?_⟩
  rw [hgeq]
  exact ⟨rfl, rfl, rfl, rfl, rfl, rfl, rfl⟩

/-! ## Claim C5: the critical-feature drop invariant -/

/-- C5 (critical-feature drop): every row of the final batch table has
defined values for all four critical features (L10_PTS, L10_MIN, REST_DAYS,
OPP_DEF_STRENGTH_PTS), rows missing one are dropped by the final dropna
rather than imputed, and in particular every surviving row has an earlier
game of the same player in the parsed table, so the first game of a player
timeline never survives. -/
theorem c5_critical_drop (raws gs : List Game)
    (hparse : parseTable (reindex (sortPlayerDate raws)) = some gs) :
    process_data raws = some (batchStages gs) ∧
    ∀ b ∈ batchStages gs,
      (b.l10pts.isSome = true ∧ b.l10min.isSome = true ∧
       b.restDays.isSome = true ∧ b.oppDefPts.isSome = true) ∧
      ∃ g2 ∈ gs, g2.playerId = b.g.playerId ∧ g2.idx < b.g.idx := by
  constructor
  · unfold process_data
    rw [hparse]
  · intro b hb
    obtain ⟨hcrit, i, hi, hg, -, h10, -, -, -, -⟩ := batchStages_mem gs b hb
    simp only [criticalOk, Bool.and_eq_true] at hcrit
    refine ⟨⟨hcrit.1.1.1, hcrit.1.1.2, hcrit.1.2, hcrit.2⟩, ?_⟩
    have hidx := parsed_idx raws gs hparse
    have hsome : ((bRowAt gs i (gs.getD i g0)).l10pts).isSome = true := by
      rw [← h10]; exact hcrit.1.1.1
    have h5le : 5 ≤ (gs.take i).countP fun s => s.playerId = (gs.getD i g0).playerId := by
      have hiff := rollShiftMean_isSome_iff 10 5
        ((gs.filter fun s => s.playerId = (gs.getD i g0).playerId).map fun s => s.pts)
        ((gs.take i).countP fun s => s.playerId = (gs.getD i g0).playerId)
        (by rw [List.length_map]; exact countP_le_length_filter _ _ _) (by omega)
      simp only [bRowAt, kFeat] at hsome
      exact hiff.mp hsome
    have hpos : 0 < (gs.take i).countP fun s => s.playerId = (gs.getD i g0).playerId := by
      omega
    rw [List.countP_pos] at hpos
    obtain ⟨g2, hg2mem, hg2p⟩ := hpos
    obtain ⟨j, hj, hjeq⟩ := List.mem_iff_getElem.mp hg2mem
    have hji : j < i := by
      have := List.length_take i gs
      omega
    have hjlen : j < gs.length := by
      have := List.length_take i gs
      omega
    have hg2get : gs.getD j g0 = g2 := by
      rw [List.getD_eq_getElem _ _ hjlen, ← hjeq, List.getElem_take]
    refine ⟨g2, List.mem_of_mem_take hg2mem, ?_, ?_⟩
    · have hp : g2.playerId = (gs.getD i g0).playerId := by simpa using hg2p
      rw [hp, hg]
      simp only [bRowAt]
    · have h1 : g2.idx = j := by rw [← hg2get]; exact hidx j hjlen
      have h2 : b.g.idx = i := by
        rw [hg]
        simp only [bRowAt]
        exact hidx i hi
      omega

/-- A home matchup string against BOS used by concrete tables. -/
def muLALvBOS : List Char := ("LAL vs. BOS").toList

/-- Six games of one player, all against BOS, used by the C5 witness. -/
def c5Raws : List Game :=
  [{ g0 with playerId := 1, date := 1, matchup := muLALvBOS, minutes := 30, pts := 10, reb := 4, ast := 2 },
   { g0 with playerId := 1, date := 2, matchup := muLALvBOS, minutes := 31, pts := 12, reb := 5, ast := 3 },
   { g0 with playerId := 1, date := 3, matchup := muLALvBOS, minutes := 32, pts := 14, reb := 6, ast := 4 },
   { g0 with playerId := 1, date := 4, matchup := muLALvBOS, minutes := 33, pts := 16, reb := 7, ast := 5 },
   { g0 with playerId := 1, date := 5, matchup := muLALvBOS, minutes := 34, pts := 18, reb := 8, ast := 6 },
   { g0 with playerId := 1, date := 6, matchup := muLALvBOS, minutes := 35, pts := 20, reb := 9, ast := 7 }]

/-- Witness for C5 at the concrete six-game table. -/
theorem c5_critical_drop_witness :
    ∃ gs, parseTable (reindex (sortPlayerDate c5Raws)) = some gs ∧
      (process_data c5Raws = some (batchStages gs) ∧
       ∀ b ∈ batchStages gs,
         (b.l10pts.isSome = true ∧ b.l10min.isSome = true ∧
          b.restDays.isSome = true ∧ b.oppDefPts.isSome = true) ∧
         ∃ g2 ∈ gs, g2.playerId = b.g.playerId ∧ g2.idx < b.g.idx) :=
  ⟨_, rfl, c5_critical_drop c5Raws _ rfl⟩

/-! ## Claim C7: fallback ordering for matchup features -/

/-- C7 (fallback ordering): when a row has no prior game of its player
against its opponent, the filled matchup features equal the season-to-date
points mean and the trailing-10 rebound and assist means of that very row
(no zero and no league constant is substituted); and in the realtime path,
when the window holds no game against the requested opponent, the matchup
features equal the overall window averages in the same pattern. -/
theorem c7_fallback_ordering (gs : List Game) (i : Nat) (hi : i < gs.length)
    (hnoprior : ((gs.take i).countP fun r =>
      (r.playerId, r.opponent) = ((gs.getD i g0).playerId, (gs.getD i g0).opponent)) = 0)
    (df : List Game) (opp : List Char) (home rest : ℚ)
    (hnone : (df.filter fun r => r.opponent = opp) = []) :
    ((fillVsOppRow ((computeFeatures gs).getD i b0)).vsOppPts =
       ((computeFeatures gs).getD i b0).seasonAvgPts ∧
     (fillVsOppRow ((computeFeatures gs).getD i b0)).vsOppReb =
       ((computeFeatures gs).getD i b0).l10reb ∧
     (fillVsOppRow ((computeFeatures gs).getD i b0)).vsOppAst =
       ((computeFeatures gs).getD i b0).l10ast) ∧
    ((rtCore df opp home rest).vsOppPts = (rtCore df opp home rest).seasonAvgPts ∧
     (rtCore df opp home rest).vsOppReb = (rtCore df opp home rest).l10reb ∧
     (rtCore df opp home rest).vsOppAst = (rtCore df opp home rest).l10ast) := by
  constructor
  · rw [computeFeatures_getD _ _ hi]
    simp only [bRowAt, fillVsOppRow, kFeat]
    rw [hnoprior]
    simp [expShiftMean, expOfPrior]
  · simp only [rtCore]
    rw [hnone]
    simp

/-- Two games of one player against different opponents (C7 witness, batch
side): at row 1 there is no prior game against the row-1 opponent. -/
def c7Gs : List Game :=
  [{ g0 with playerId := 4, idx := 0, date := 1, opponent := ("DEN").toList, pts := 10 },
   { g0 with playerId := 4, idx := 1, date := 2, opponent := ("MIA").toList, pts := 20 }]

/-- Five games against DEN used by the realtime side of the C7 witness; the
requested opponent MIA never occurs in the window. -/
def c7Df : List Game :=
  [{ g0 with date := 1, opponent := ("DEN").toList, pts := 10 },
   { g0 with date := 2, opponent := ("DEN").toList, pts := 11 },
   { g0 with date := 3, opponent := ("DEN").toList, pts := 12 },
   { g0 with date := 4, opponent := ("DEN").toList, pts := 13 },
   { g0 with date := 5, opponent := ("DEN").toList, pts := 14 }]

/-- Witness for C7 at the concrete tables. -/
theorem c7_fallback_ordering_witness :
    (1 < c7Gs.length) ∧
    (((fillVsOppRow ((computeFeatures c7Gs).getD 1 b0)).vsOppPts =
        ((computeFeatures c7Gs).getD 1 b0).seasonAvgPts ∧
      (fillVsOppRow ((computeFeatures c7Gs).getD 1 b0)).vsOppReb =
        ((computeFeatures c7Gs).getD 1 b0).l10reb ∧
      (fillVsOppRow ((computeFeatures c7Gs).getD 1 b0)).vsOppAst =
        ((computeFeatures c7Gs).getD 1 b0).l10ast) ∧
     ((rtCore c7Df (("MIA").toList) 1 1).vsOppPts = (rtCore c7Df (("MIA").toList) 1 1).seasonAvgPts ∧
      (rtCore c7Df (("MIA").toList) 1 1).vsOppReb = (rtCore c7Df (("MIA").toList) 1 1).l10reb ∧
      (rtCore c7Df (("MIA").toList) 1 1).vsOppAst = (rtCore c7Df (("MIA").toList) 1 1).l10ast)) :=
  ⟨by decide, c7_fallback_ordering c7Gs 1 (by decide) (by decide) c7Df (("MIA").toList) 1 1 rfl⟩

/-! ## Claim C4: feature contract agreement between serving and training -/

/-- C4 (feature contract agreement): for every successful realtime request
the key sequences of the three returned feature mappings are exactly, in
order, the POINTS_FEATURES, REBOUNDS_FEATURES and ASSISTS_FEATURES lists the
models are trained against, with nothing else included. -/
theorem c4_feature_contract (fetched : Option (List Game)) (opp : List Char)
    (home rest : ℚ)
    (t : (List (String × ℚ)) × (List (String × ℚ)) × (List (String × ℚ)) × List Game)
    (h : get_realtime_prediction_features fetched opp home rest = some t) :
    t.1.map Prod.fst = POINTS_FEATURES ∧
    t.2.1.map Prod.fst = REBOUNDS_FEATURES ∧
    t.2.2.1.map Prod.fst = ASSISTS_FEATURES := by
  unfold get_realtime_prediction_features at h
  cases fetched with
  | none => simp at h
  | some games =>
    have h2 : (match calculate_realtime_features games opp home rest with
      | none => none
      | some f =>
        some (subDict rtPtsKeys f, subDict rtRebKeys f, subDict rtAstKeys f, games)) = some t := h
    cases hc : calculate_realtime_features games opp home rest with
    | none => rw [hc] at h2; simp at h2
    | some f =>
      rw [hc] at h2
      simp only [Option.some.injEq] at h2
      subst h2
      refine ⟨?_, ?_, ?_⟩ <;>
        simp only [subDict, List.map_map, Function.comp] <;> rfl

/-- Four games (too few) for the realtime witnesses. -/
def c8Df4 : List Game :=
  [{ g0 with date := 1, pts := 10 }, { g0 with date := 2, pts := 11 },
   { g0 with date := 3, pts := 12 }, { g0 with date := 4, pts := 13 }]

/-- Five games (just enough) for the realtime witnesses. -/
def c8Df5 : List Game :=
  [{ g0 with date := 1, pts := 10 }, { g0 with date := 2, pts := 11 },
   { g0 with date := 3, pts := 12 }, { g0 with date := 4, pts := 13 },
   { g0 with date := 5, pts := 14 }]

/-- Witness for C4 at a successful five-game request. -/
theorem c4_feature_contract_witness :
    ∃ t, get_realtime_prediction_features (some c8Df5) (("BOS").toList) 1 1 = some t ∧
      (t.1.map Prod.fst = POINTS_FEATURES ∧
       t.2.1.map Prod.fst = REBOUNDS_FEATURES ∧
       t.2.2.1.map Prod.fst = ASSISTS_FEATURES) :=
  ⟨_, rfl, c4_feature_contract (some c8Df5) (("BOS").toList) 1 1 _ rfl⟩

/-! ## Claim C8: the insufficient-history signal -/

/-- C8 (insufficient-history signal): with no fetched history, or with fewer
than five fetched games, the realtime assembler returns the uniform none
signal and no partial mapping; with five or more games it returns the full
feature structure and the three complete target-scoped mappings built over
the entire key lists. -/
theorem c8_insufficient_history (fetched : Option (List Game)) (opp : List Char)
    (home rest : ℚ) :
    (fetched = none → get_realtime_prediction_features fetched opp home rest = none) ∧
    (∀ games, fetched = some games → games.length < 5 →
      calculate_realtime_features games opp home rest = none ∧
      get_realtime_prediction_features fetched opp home rest = none) ∧
    (∀ games, fetched = some games → 5 ≤ games.length →
      calculate_realtime_features games opp home rest =
        some (rtCore (sortDate games) opp home rest) ∧
      get_realtime_prediction_features fetched opp home rest =
        some (subDict rtPtsKeys (rtCore (sortDate games) opp home rest),
          subDict rtRebKeys (rtCore (sortDate games) opp home rest),
          subDict rtAstKeys (rtCore (sortDate games) opp home rest), games)) := by
  refine ⟨?_, ?_, ?_⟩
  · intro h
    subst h
    rfl
  · intro games h hlt
    subst h
    have hc : calculate_realtime_features games opp home rest = none := by
      unfold calculate_realtime_features
      rw [if_pos hlt]
    refine ⟨hc, ?_⟩
    show (match calculate_realtime_features games opp home rest with
      | none => none
      | some f =>
        some (subDict rtPtsKeys f, subDict rtRebKeys f, subDict rtAstKeys f, games)) = none
    rw [hc]
  · intro games h hge
    subst h
    have hc : calculate_realtime_features games opp home rest =
        some (rtCore (sortDate games) opp home rest) := by
      unfold calculate_realtime_features
      rw [if_neg (by omega)]
    refine ⟨hc, ?_⟩
    show (match calculate_realtime_features games opp home rest with
      | none => none
      | some f =>
        some (subDict rtPtsKeys f, subDict rtRebKeys f, subDict rtAstKeys f, games)) =
      some (subDict rtPtsKeys (rtCore (sortDate games) opp home rest),
        subDict rtRebKeys (rtCore (sortDate games) opp home rest),
        subDict rtAstKeys (rtCore (sortDate games) opp home rest), games)
    rw [hc]

/-- Witness for C8: a four-game request yields the uniform none signal, a
five-game request yields the assembled features. -/
theorem c8_insufficient_history_witness :
    (calculate_realtime_features c8Df4 (("BOS").toList) 1 1 = none ∧
     get_realtime_prediction_features (some c8Df4) (("BOS").toList) 1 1 = none) ∧
    (calculate_realtime_features c8Df5 (("BOS").toList) 1 1 =
       some (rtCore (sortDate c8Df5) (("BOS").toList) 1 1) ∧
     get_realtime_prediction_features (some c8Df5) (("BOS").toList) 1 1 =
       some (subDict rtPtsKeys (rtCore (sortDate c8Df5) (("BOS").toList) 1 1),
         subDict rtRebKeys (rtCore (sortDate c8Df5) (("BOS").toList) 1 1),
         subDict rtAstKeys (rtCore (sortDate c8Df5) (("BOS").toList) 1 1), c8Df5)) :=
  ⟨(c8_insufficient_history (some c8Df4) (("BOS").toList) 1 1).2.1 c8Df4 rfl (by decide),
   (c8_insufficient_history (some c8Df5) (("BOS").toList) 1 1).2.2 c8Df5 rfl (by decide)⟩

/-! ## Claim C9: the validity-filter contract -/

/-- The survivor predicate of clean_outliers as one boolean. -/
def cleanKeep (r : CRec) : Bool :=
  r.minutes.gtB 5 && r.pts.ltB 70 && r.reb.ltB 30 && r.ast.ltB 25

/-- The per-record repair of clean_outliers: clip the rest-days column, then
replace infinities everywhere. -/
def cleanFix (r : CRec) : CRec :=
  replaceInfRec { r with restDays := r.restDays.clip 0 7 }

theorem clean_outliers_eq (rs : List CRec) :
    clean_outliers rs = (rs.filter cleanKeep).map cleanFix := by
  unfold clean_outliers cleanKeep cleanFix
  rw [List.map_map, List.filter_filter, List.filter_filter, List.filter_filter]
  congr 1
  apply List.filter_congr
  intro r _
  cases h1 : r.minutes.gtB 5 <;> cases h2 : r.pts.ltB 70 <;>
    cases h3 : r.reb.ltB 30 <;> cases h4 : r.ast.ltB 25 <;> rfl

/-- C9 (validity-filter contract): clean_outliers is the order-preserving
filter of exactly the records violating none of the four plausibility rules,
followed by the per-record repair; on finite statistics the survivor test is
the negation of the claimed drop set (MIN at most 5, or PTS, REB, AST at or
above their bounds); a raw rest-days value of 10 clips to 7 and a game
played 11 days after the previous one (raw rest 10) has back-to-back flag 0;
and infinite cells become the missing marker. -/
theorem c9_validity_filter (rs : List CRec) :
    (clean_outliers rs = (rs.filter cleanKeep).map cleanFix) ∧
    (∀ (r : CRec) (mq pq rq aq : ℚ), r.minutes = EVal.num mq → r.pts = EVal.num pq →
      r.reb = EVal.num rq → r.ast = EVal.num aq →
      (cleanKeep r = true ↔ ¬(mq ≤ 5 ∨ 70 ≤ pq ∨ 30 ≤ rq ∨ 25 ≤ aq))) ∧
    (EVal.clip (EVal.num 10) 0 7 = EVal.num 7) ∧
    (∀ (gs : List Game) (i : Nat) (g : Game), dFeat gs i g.playerId = some 11 →
      (bRowAt gs i g).b2b = 0) ∧
    (replaceInf EVal.pinf = EVal.nan ∧ replaceInf EVal.ninf = EVal.nan) := by
  refine ⟨clean_outliers_eq rs, ?_, ?_, ?_, ⟨rfl, rfl⟩⟩
  · intro r mq pq rq aq h1 h2 h3 h4
    unfold cleanKeep
    rw [h1, h2, h3, h4]
    simp only [EVal.gtB, EVal.ltB, Bool.and_eq_true, decide_eq_true_eq, not_or, not_le]
    tauto
  · unfold EVal.clip
    norm_num
  · intro gs i g h
    simp only [bRowAt]
    rw [h]
    norm_num

/-- Records for the C9 witness: the first is dropped by the minutes rule,
the second survives with a rest-days value of 10 and an infinite cell. -/
def c9r1 : CRec :=
  { minutes := EVal.num 3, pts := EVal.num 60, reb := EVal.num 4, ast := EVal.num 2
    restDays := EVal.num 1, others := [] }

def c9r2 : CRec :=
  { minutes := EVal.num 30, pts := EVal.num 25, reb := EVal.num 8, ast := EVal.num 5
    restDays := EVal.num 10, others := [EVal.pinf] }

/-- Two games eleven days apart for the back-to-back conjunct of the C9
witness. -/
def c9Gs : List Game :=
  [{ g0 with playerId := 9, date := 1 }, { g0 with playerId := 9, idx := 1, date := 12 }]

/-- Witness for C9, instantiating every quantified conjunct concretely. -/
theorem c9_validity_filter_witness :
    (clean_outliers [c9r1, c9r2] = ([c9r1, c9r2].filter cleanKeep).map cleanFix) ∧
    (cleanKeep c9r1 = true ↔
      ¬((3 : ℚ) ≤ 5 ∨ (70 : ℚ) ≤ 60 ∨ (30 : ℚ) ≤ 4 ∨ (25 : ℚ) ≤ 2)) ∧
    (EVal.clip (EVal.num 10) 0 7 = EVal.num 7) ∧
    (bRowAt c9Gs 1 (c9Gs.getD 1 g0)).b2b = 0 ∧
    (replaceInf EVal.pinf = EVal.nan ∧ replaceInf EVal.ninf = EVal.nan) :=
  ⟨(c9_validity_filter [c9r1, c9r2]).1,
   (c9_validity_filter []).2.1 c9r1 3 60 4 2 rfl rfl rfl rfl,
   (c9_validity_filter []).2.2.1,
   (c9_validity_filter []).2.2.2.1 c9Gs 1 (c9Gs.getD 1 g0)
     (by simp [dFeat, diffOfPrior, c9Gs, g0]; norm_num),
   (c9_validity_filter []).2.2.2.2⟩

/-! ## Split correctness: the splitter on a string with one separator
occurrence returns the text on each side of it -/

theorem stripPref_length (pat s rest : List Char) (h : stripPref pat s = some rest) :
    s.length = pat.length + rest.length := by
  induction pat generalizing s with
  | nil =>
    simp only [stripPref, Option.some.injEq] at h
    subst h
    simp
  | cons p ps ih =>
    cases s with
    | nil => simp [stripPref] at h
    | cons c cs =>
      simp only [stripPref] at h
      by_cases hc : c = p
      · rw [if_pos hc] at h
        have h2 := ih cs h
        simp only [List.length_cons]
        omega
      · rw [if_neg hc] at h
        cases h

theorem stripPref_append (pat suf : List Char) : stripPref pat (pat ++ suf) = some suf := by
  induction pat with
  | nil => rfl
  | cons p ps ih => simp [stripPref, ih]

/-- With a nonempty pattern the splitter consumes input every step, so any
fuel beyond the input length gives the same result. -/
theorem splitFrom_fuel (pat : List Char) (hpat : pat ≠ []) :
    ∀ (n : Nat) (s cur : List Char) (fuel fuel2 : Nat), s.length ≤ n →
      s.length + 1 ≤ fuel → s.length + 1 ≤ fuel2 →
      splitFrom pat fuel cur s = splitFrom pat fuel2 cur s := by
  intro n
  induction n with
  | zero =>
    intro s cur fuel fuel2 hs h1 h2
    have hnil : s = [] := List.length_eq_zero.mp (by omega)
    subst hnil
    obtain ⟨f, rfl⟩ : ∃ f, fuel = f + 1 := ⟨fuel - 1, by omega⟩
    obtain ⟨f2, rfl⟩ : ∃ f2, fuel2 = f2 + 1 := ⟨fuel2 - 1, by omega⟩
    rfl
  | succ n ih =>
    intro s cur fuel fuel2 hs h1 h2
    obtain ⟨f, rfl⟩ : ∃ f, fuel = f + 1 := ⟨fuel - 1, by omega⟩
    obtain ⟨f2, rfl⟩ : ∃ f2, fuel2 = f2 + 1 := ⟨fuel2 - 1, by omega⟩
    cases s with
    | nil => rfl
    | cons c cs =>
      simp only [splitFrom]
      cases hsp : stripPref pat (c :: cs) with
      | none =>
        exact ih cs (c :: cur) f f2 (by simp at hs; omega)
          (by simp at h1; omega) (by simp at h2; omega)
      | some rest =>
        have hlen := stripPref_length pat _ _ hsp
        have hp1 : 1 ≤ pat.length := by
          cases pat
          · exact absurd rfl hpat
          · simp
        simp only [List.length_cons] at hs h1 h2 hlen
        show cur.reverse :: splitFrom pat f [] rest =
          cur.reverse :: splitFrom pat f2 [] rest
        congr 1
        exact ih rest [] f f2 (by omega) (by omega) (by omega)

/-- On a region with no pattern occurrence the splitter emits one fragment:
the whole region. -/
theorem splitFrom_no_match (pat : List Char) :
    ∀ (s cur : List Char) (fuel : Nat), s.length + 1 ≤ fuel →
      (∀ i, i < s.length → stripPref pat (s.drop i) = none) →
      splitFrom pat fuel cur s = [cur.reverse ++ s] := by
  intro s
  induction s with
  | nil =>
    intro cur fuel h1 _
    obtain ⟨f, rfl⟩ : ∃ f, fuel = f + 1 := ⟨fuel - 1, by omega⟩
    simp [splitFrom]
  | cons c cs ih =>
    intro cur fuel h1 hno
    obtain ⟨f, rfl⟩ : ∃ f, fuel = f + 1 := ⟨fuel - 1, by omega⟩
    simp only [splitFrom]
    have h0 := hno 0 (by simp)
    rw [List.drop_zero] at h0
    rw [h0]
    have hrec := ih (c :: cur) f (by simp at h1; omega) (by
      intro i hi
      have := hno (i + 1) (by simp at hi ⊢; omega)
      rwa [List.drop_succ_cons] at this)
    rw [hrec]
    simp

theorem splitOnL_no_match (s pat : List Char)
    (hno : ∀ i, i < s.length → stripPref pat (s.drop i) = none) :
    splitOnL s pat = [s] := by
  unfold splitOnL
  rw [splitFrom_no_match pat s [] (s.length + 1) (le_refl _) hno]
  simp

/-- Scanning a match-free region up to the first separator occurrence emits
that region as a fragment and continues after the separator. -/
theorem splitFrom_split (pat : List Char) (hpat : pat ≠ []) :
    ∀ (pre suf cur : List Char) (fuel : Nat),
      (pre ++ pat ++ suf).length + 1 ≤ fuel →
      (∀ i, i < pre.length → stripPref pat ((pre ++ pat ++ suf).drop i) = none) →
      splitFrom pat fuel cur (pre ++ pat ++ suf) =
        (cur.reverse ++ pre) :: splitFrom pat (suf.length + 1) [] suf := by
  intro pre
  induction pre with
  | nil =>
    intro suf cur fuel h1 _
    simp only [List.nil_append] at h1 ⊢
    obtain ⟨f, rfl⟩ : ∃ f, fuel = f + 1 := ⟨fuel - 1, by omega⟩
    cases hp : pat with
    | nil => exact absurd hp hpat
    | cons p ps =>
      simp only [splitFrom, List.append_eq]
      have hstrip : stripPref (p :: ps) (p :: (ps ++ suf)) = some suf :=
        stripPref_append (p :: ps) suf
      rw [hstrip]
      have hf : suf.length + 1 ≤ f := by
        rw [hp] at h1
        simp only [List.cons_append, List.length_cons, List.length_append] at h1
        omega
      show cur.reverse :: splitFrom (p :: ps) f [] suf =
        (cur.reverse ++ []) :: splitFrom (p :: ps) (suf.length + 1) [] suf
      rw [splitFrom_fuel (p :: ps) (by simp) suf.length suf [] f (suf.length + 1)
        (le_refl _) hf (le_refl _)]
      simp
  | cons c pre2 ih =>
    intro suf cur fuel h1 hno
    obtain ⟨f, rfl⟩ : ∃ f, fuel = f + 1 := ⟨fuel - 1, by omega⟩
    simp only [List.cons_append] at h1 hno ⊢
    simp only [splitFrom]
    have h0 := hno 0 (by simp)
    rw [List.drop_zero] at h0
    rw [h0]
    have hrec := ih suf (c :: cur) f (by simp at h1 ⊢; omega) (by
      intro i hi
      have := hno (i + 1) (by simp at hi ⊢; omega)
      rwa [List.drop_succ_cons] at this)
    rw [hrec]
    simp

/-- A string of the form pre - separator - suf, with no occurrence starting
inside the scan of pre and none in suf, splits into exactly the two sides. -/
theorem splitOnL_single (pat pre suf : List Char) (hpat : pat ≠ [])
    (hno : ∀ i, i < pre.length → stripPref pat ((pre ++ pat ++ suf).drop i) = none)
    (hnos : ∀ i, i < suf.length → stripPref pat (suf.drop i) = none) :
    splitOnL (pre ++ pat ++ suf) pat = [pre, suf] := by
  unfold splitOnL
  rw [splitFrom_split pat hpat pre suf [] _ (le_refl _) hno]
  rw [splitFrom_no_match pat suf [] (suf.length + 1) (le_refl _) hnos]
  simp

/-- Any occurrence of the pattern forces at least two fragments. -/
theorem two_le_splitFrom_of_match (pat : List Char) :
    ∀ (s cur : List Char) (fuel : Nat), s.length + 1 ≤ fuel →
      (∃ i, i < s.length ∧ (stripPref pat (s.drop i)).isSome) →
      2 ≤ (splitFrom pat fuel cur s).length := by
  intro s
  induction s with
  | nil =>
    intro cur fuel _ hex
    obtain ⟨i, hi, -⟩ := hex
    simp at hi
  | cons c cs ih =>
    intro cur fuel h1 hex
    obtain ⟨f, rfl⟩ : ∃ f, fuel = f + 1 := ⟨fuel - 1, by omega⟩
    simp only [splitFrom]
    cases hsp : stripPref pat (c :: cs) with
    | some rest =>
      have hne := splitFrom_ne_nil pat f [] rest
      have hpos : 1 ≤ (splitFrom pat f [] rest).length := by
        cases hl : splitFrom pat f [] rest
        · exact absurd hl hne
        · simp
      simp only [List.length_cons]
      omega
    | none =>
      obtain ⟨i, hi, hsome⟩ := hex
      cases i with
      | zero =>
        rw [List.drop_zero, hsp] at hsome
        simp at hsome
      | succ j =>
        apply ih (c :: cur) f (by simp at h1; omega)
        refine ⟨j, by simp at hi; omega, ?_⟩
        rwa [List.drop_succ_cons] at hsome

theorem strContains_of_match (s pat : List Char)
    (h : ∃ i, i < s.length ∧ (stripPref pat (s.drop i)).isSome) :
    strContainsL s pat = true := by
  unfold strContainsL splitOnL
  have h2 := two_le_splitFrom_of_match pat s [] (s.length + 1) (le_refl _) h
  simp only [bne_iff_ne, ne_eq]
  omega

/-- The spaced separator is one space, the unspaced vs. pattern, one space. -/
theorem vsSep_decomp : vsSep = [' '] ++ vsDot ++ [' '] := by decide

/-! ## Claim C10: totality of the matchup parsers -/

/-- C10, amended (matchup parsing): the extraction functions return a value
on every matchup in which the unspaced pattern vs. only occurs as part of
the spaced separator; a separator-free matchup yields the UNK sentinel; and
a matchup containing exactly one separator occurrence yields the text on the
corresponding side of it: the opponent is the text after the separator and
the team the text before it, for both the home and the away separator.  (As
stated, totality on ALL strings is refuted by the counterexample below: a
string containing vs. without the spaced separator makes the Python
element-1 indexing raise.) -/
theorem c10_matchup_parsing_amended (m : List Char)
    (hgood : strContainsL m vsDot = false ∨ strContainsL m vsSep = true) :
    (get_opponent m).isSome = true ∧ (get_team m).isSome = true ∧
    (extract_opponent m).isSome = true ∧
    (strContainsL m vsDot = false → strContainsL m atSep = false →
      get_opponent m = some unkTeam ∧ get_team m = some unkTeam ∧
      extract_opponent m = some unkTeam) ∧
    (∀ pre suf : List Char, m = pre ++ vsSep ++ suf →
      (∀ i, i < pre.length → stripPref vsSep (m.drop i) = none) →
      (∀ i, i < suf.length → stripPref vsSep (suf.drop i) = none) →
      get_opponent m = some suf ∧ get_team m = some pre ∧
      extract_opponent m = some suf) ∧
    (∀ pre suf : List Char, strContainsL m vsDot = false → m = pre ++ atSep ++ suf →
      (∀ i, i < pre.length → stripPref atSep (m.drop i) = none) →
      (∀ i, i < suf.length → stripPref atSep (suf.drop i) = none) →
      get_opponent m = some suf ∧ get_team m = some pre ∧
      extract_opponent m = some suf) := by
  have hsome1 : ∀ pat, strContainsL m pat = true →
      ((splitOnL m pat)[1]?).isSome = true := by
    intro pat hp
    have h2 := two_le_splitOnL_of_contains m pat hp
    rw [List.getElem?_eq_getElem (by omega)]
    rfl
  have hsome0 : ∀ pat, ((splitOnL m pat)[0]?).isSome = true := by
    intro pat
    have h0 : (splitOnL m pat).length ≠ 0 := by
      simpa [List.length_eq_zero] using splitOnL_ne_nil m pat
    rw [List.getElem?_eq_getElem (by omega)]
    rfl
  have hbase : (get_opponent m).isSome = true ∧ (get_team m).isSome = true ∧
      (extract_opponent m).isSome = true ∧
      (strContainsL m vsDot = false → strContainsL m atSep = false →
        get_opponent m = some unkTeam ∧ get_team m = some unkTeam ∧
        extract_opponent m = some unkTeam) := by
    unfold get_opponent get_team extract_opponent
    cases hv : strContainsL m vsDot with
    | true =>
      have hsep : strContainsL m vsSep = true := by
        rcases hgood with h | h
        · rw [hv] at h; cases h
        · exact h
      simp only [hv, if_true]
      refine ⟨hsome1 _ hsep, hsome0 _, hsome1 _ hsep, ?_⟩
      intro hfalse
      cases hfalse
    | false =>
      simp only [hv, Bool.false_eq_true, if_false]
      cases ha : strContainsL m atSep with
      | true =>
        simp only [ha, if_true]
        refine ⟨hsome1 _ ha, hsome0 _, hsome1 _ ha, ?_⟩
        intro _ hfalse
        cases hfalse
      | false =>
        simp only [ha, Bool.false_eq_true, if_false]
        simp
  refine ⟨hbase.1, hbase.2.1, hbase.2.2.1, hbase.2.2.2, ?_, ?_⟩
  · intro pre suf hm hno hnos
    subst hm
    have hsplit : splitOnL (pre ++ vsSep ++ suf) vsSep = [pre, suf] :=
      splitOnL_single vsSep pre suf (by decide) hno hnos
    have hocc : ∃ i, i < (pre ++ vsSep ++ suf).length ∧
        (stripPref vsDot ((pre ++ vsSep ++ suf).drop i)).isSome := by
      refine ⟨pre.length + 1, ?_, ?_⟩
      · have h5 : vsSep.length = 5 := by decide
        simp only [List.length_append]
        omega
      · rw [List.append_assoc, List.drop_append 1]
        have hshape : vsSep ++ suf = ' ' :: (vsDot ++ (' ' :: suf)) := by
          rw [vsSep_decomp]
          simp
        rw [hshape, List.drop_succ_cons, List.drop_zero, stripPref_append]
        rfl
    have hv : strContainsL (pre ++ vsSep ++ suf) vsDot = true :=
      strContains_of_match _ _ hocc
    unfold get_opponent get_team extract_opponent
    simp only [List.append_assoc] at hv hsplit
    simp [hv, hsplit]
  · intro pre suf hv0 hm hno hnos
    subst hm
    have hsplit : splitOnL (pre ++ atSep ++ suf) atSep = [pre, suf] :=
      splitOnL_single atSep pre suf (by decide) hno hnos
    have hat : strContainsL (pre ++ atSep ++ suf) atSep = true := by
      unfold strContainsL
      rw [hsplit]
      rfl
    unfold get_opponent get_team extract_opponent
    simp only [List.append_assoc] at hv0 hat hsplit
    simp [hv0, hat, hsplit]

/-- C10 counterexample: the matchup LALvs.BOS contains vs. but not the
spaced separator, so the claimed always-total extraction fails; both
extraction functions hit the modelled IndexError. -/
theorem c10_matchup_parsing_counterexample :
    get_opponent (("LALvs.BOS").toList) = none ∧
    get_team (("LALvs.BOS").toList) = some (("LALvs.BOS").toList) ∧
    extract_opponent (("LALvs.BOS").toList) = none := by
  decide

/-- Witness for the amended C10 at a well-formed home matchup, including the
side-correctness conclusion instantiated at its decomposition LAL - vs - BOS. -/
theorem c10_matchup_parsing_amended_witness :
    (strContainsL muLALvBOS vsDot = false ∨ strContainsL muLALvBOS vsSep = true) ∧
    ((get_opponent muLALvBOS).isSome = true ∧ (get_team muLALvBOS).isSome = true ∧
     (extract_opponent muLALvBOS).isSome = true ∧
     (strContainsL muLALvBOS vsDot = false → strContainsL muLALvBOS atSep = false →
       get_opponent muLALvBOS = some unkTeam ∧ get_team muLALvBOS = some unkTeam ∧
       extract_opponent muLALvBOS = some unkTeam) ∧
     (∀ pre suf : List Char, muLALvBOS = pre ++ vsSep ++ suf →
       (∀ i, i < pre.length → stripPref vsSep (muLALvBOS.drop i) = none) →
       (∀ i, i < suf.length → stripPref vsSep (suf.drop i) = none) →
       get_opponent muLALvBOS = some suf ∧ get_team muLALvBOS = some pre ∧
       extract_opponent muLALvBOS = some suf) ∧
     (∀ pre suf : List Char, strContainsL muLALvBOS vsDot = false →
       muLALvBOS = pre ++ atSep ++ suf →
       (∀ i, i < pre.length → stripPref atSep (muLALvBOS.drop i) = none) →
       (∀ i, i < suf.length → stripPref atSep (suf.drop i) = none) →
       get_opponent muLALvBOS = some suf ∧ get_team muLALvBOS = some pre ∧
       extract_opponent muLALvBOS = some suf)) ∧
    (get_opponent muLALvBOS = some (("BOS").toList) ∧
     get_team muLALvBOS = some (("LAL").toList) ∧
     extract_opponent muLALvBOS = some (("BOS").toList)) :=
  ⟨by decide,
   c10_matchup_parsing_amended muLALvBOS (by decide),
   (c10_matchup_parsing_amended muLALvBOS (by decide)).2.2.2.2.1
     (("LAL").toList) (("BOS").toList) (by decide) (by decide) (by decide)⟩

/-! ## Claim C3: is the validity filter applied before the calculators? -/

/-- The clean_outliers survivor test expressed on one raw game row. -/
def keepGame (g : Game) : Bool :=
  decide (5 < g.minutes) && decide (g.pts < 70) && decide (g.reb < 30) && decide (g.ast < 25)

/-- The ordering the claim asserts (Validity Filter BEFORE the Temporal
Feature Calculator), stated from the spec wording and used only to exhibit
the divergence from the code, which computes features first. -/
def filterFirstFeatures (gs : List Game) : List BRow :=
  computeFeatures (gs.filter keepGame)

/-- C3, amended: in process_data the validity filter runs AFTER the feature
tiers; every surviving row carries rolling and expanding statistics computed
over the player s full unfiltered timeline, so games later removed by the
filter (for example a MIN at most 5 game) do contribute to the trailing
means of subsequent games; the filter removes only their own rows. -/
theorem c3_filter_after_calculator (raws gs : List Game)
    (hparse : parseTable (reindex (sortPlayerDate raws)) = some gs) :
    process_data raws = some (batchStages gs) ∧
    ∀ b ∈ batchStages gs, ∃ i, i < gs.length ∧
      b.l5pts = (bRowAt gs i (gs.getD i g0)).l5pts ∧
      b.l10pts = (bRowAt gs i (gs.getD i g0)).l10pts ∧
      b.l5reb = (bRowAt gs i (gs.getD i g0)).l5reb ∧
      b.l5ast = (bRowAt gs i (gs.getD i g0)).l5ast ∧
      b.seasonAvgPts = (bRowAt gs i (gs.getD i g0)).seasonAvgPts := by
  constructor
  · unfold process_data
    rw [hparse]
  · intro b hb
    obtain ⟨-, i, hi, -, h5, h10, -, hreb, hast, hsea⟩ := batchStages_mem gs b hb
    exact ⟨i, hi, h5, h10, hreb, hast, hsea⟩

/-- Six games of one player: the first is a 2-minute outlier with 60 points,
the rest are ordinary 30-minute, 10-point games. -/
def c3Raws : List Game :=
  [{ g0 with playerId := 1, date := 1, matchup := muLALvBOS, minutes := 2, pts := 60, reb := 4, ast := 2 },
   { g0 with playerId := 1, date := 2, matchup := muLALvBOS, minutes := 30, pts := 10, reb := 4, ast := 2 },
   { g0 with playerId := 1, date := 3, matchup := muLALvBOS, minutes := 30, pts := 10, reb := 4, ast := 2 },
   { g0 with playerId := 1, date := 4, matchup := muLALvBOS, minutes := 30, pts := 10, reb := 4, ast := 2 },
   { g0 with playerId := 1, date := 5, matchup := muLALvBOS, minutes := 30, pts := 10, reb := 4, ast := 2 },
   { g0 with playerId := 1, date := 6, matchup := muLALvBOS, minutes := 30, pts := 10, reb := 4, ast := 2 }]

/-- The parsed, reindexed form of c3Raws, written out literally. -/
def c3Gs : List Game :=
  [{ idx := 0, playerId := 1, date := 1, matchup := muLALvBOS, opponent := ("BOS").toList,
     team := ("LAL").toList, isHome := 1, minutes := 2, pts := 60, reb := 4, ast := 2,
     fga := 0, fgPct := 0, fg3m := 0, fg3Pct := 0, fta := 0, wl := false, plusMinus := 0 },
   { idx := 1, playerId := 1, date := 2, matchup := muLALvBOS, opponent := ("BOS").toList,
     team := ("LAL").toList, isHome := 1, minutes := 30, pts := 10, reb := 4, ast := 2,
     fga := 0, fgPct := 0, fg3m := 0, fg3Pct := 0, fta := 0, wl := false, plusMinus := 0 },
   { idx := 2, playerId := 1, date := 3, matchup := muLALvBOS, opponent := ("BOS").toList,
     team := ("LAL").toList, isHome := 1, minutes := 30, pts := 10, reb := 4, ast := 2,
     fga := 0, fgPct := 0, fg3m := 0, fg3Pct := 0, fta := 0, wl := false, plusMinus := 0 },
   { idx := 3, playerId := 1, date := 4, matchup := muLALvBOS, opponent := ("BOS").toList,
     team := ("LAL").toList, isHome := 1, minutes := 30, pts := 10, reb := 4, ast := 2,
     fga := 0, fgPct := 0, fg3m := 0, fg3Pct := 0, fta := 0, wl := false, plusMinus := 0 },
   { idx := 4, playerId := 1, date := 5, matchup := muLALvBOS, opponent := ("BOS").toList,
     team := ("LAL").toList, isHome := 1, minutes := 30, pts := 10, reb := 4, ast := 2,
     fga := 0, fgPct := 0, fg3m := 0, fg3Pct := 0, fta := 0, wl := false, plusMinus := 0 },
   { idx := 5, playerId := 1, date := 6, matchup := muLALvBOS, opponent := ("BOS").toList,
     team := ("LAL").toList, isHome := 1, minutes := 30, pts := 10, reb := 4, ast := 2,
     fga := 0, fgPct := 0, fg3m := 0, fg3Pct := 0, fta := 0, wl := false, plusMinus := 0 }]

set_option maxHeartbeats 2000000 in
theorem c3_parse : parseTable (reindex (sortPlayerDate c3Raws)) = some c3Gs := rfl

set_option maxHeartbeats 1000000 in
/-- C3 counterexample: the only row surviving to the final table is the game
of date 6, and its trailing-5 points mean is 20, inflated by the 60-point,
2-minute outlier game that the validity filter later drops; computing the
same feature with the filter applied first (as the claim asserts) yields 10.
So the dropped game DOES contribute to later trailing means. -/
theorem c3_filter_before_calculator_counterexample :
    process_data c3Raws = some (batchStages c3Gs) ∧
    (batchStages c3Gs).map (fun b => b.g.date) = [(6 : ℤ)] ∧
    ((computeFeatures c3Gs).getD 5 b0).l5pts = some (20 : ℚ) ∧
    (∀ b ∈ batchStages c3Gs, b.g.date = 6 →
      b.l5pts = ((computeFeatures c3Gs).getD 5 b0).l5pts) ∧
    ((filterFirstFeatures c3Gs).getD 4 b0).g.date = 6 ∧
    ((filterFirstFeatures c3Gs).getD 4 b0).l5pts = some (10 : ℚ) ∧
    some (20 : ℚ) ≠ some (10 : ℚ) := by
  have hfilter : c3Gs.filter keepGame = c3Gs.drop 1 := by decide
  have h56 : (5 : Nat) < c3Gs.length := by decide
  have h45 : (4 : Nat) < (c3Gs.drop 1).length := by decide
  refine ⟨?_, ?_, ?_, ?_, ?_, ?_, by norm_num⟩
  · unfold process_data
    rw [c3_parse]
  · decide
  · rw [computeFeatures_getD _ _ h56]
    simp only [bRowAt]
    norm_num [kFeat, c3Gs, g0, rollShiftMean, rollOfPrior, lastN, qmean,
      List.filter, List.countP, List.countP.go]
  · intro b hb hdate
    obtain ⟨-, i, hi, hg, h5eq, -, -, -, -, -⟩ := batchStages_mem c3Gs b hb
    have hdate2 : (c3Gs.getD i g0).date = 6 := by
      rw [hg] at hdate
      simpa [bRowAt] using hdate
    have hlen : c3Gs.length = 6 := by decide
    rw [hlen] at hi
    have hi5 : i = 5 := by
      interval_cases i <;> revert hdate2 <;> decide
    rw [h5eq, hi5, computeFeatures_getD _ _ h56]
  · unfold filterFirstFeatures
    rw [hfilter, computeFeatures_getD _ _ h45]
    simp only [bRowAt]
    decide
  · unfold filterFirstFeatures
    rw [hfilter, computeFeatures_getD _ _ h45]
    simp only [bRowAt]
    norm_num [kFeat, c3Gs, g0, rollShiftMean, rollOfPrior, lastN, qmean,
      List.filter, List.countP, List.countP.go]

/-- Witness for the amended C3 at the concrete six-game table. -/
theorem c3_filter_after_calculator_witness :
    parseTable (reindex (sortPlayerDate c3Raws)) = some c3Gs ∧
    (process_data c3Raws = some (batchStages c3Gs) ∧
     ∀ b ∈ batchStages c3Gs, ∃ i, i < c3Gs.length ∧
       b.l5pts = (bRowAt c3Gs i (c3Gs.getD i g0)).l5pts ∧
       b.l10pts = (bRowAt c3Gs i (c3Gs.getD i g0)).l10pts ∧
       b.l5reb = (bRowAt c3Gs i (c3Gs.getD i g0)).l5reb ∧
       b.l5ast = (bRowAt c3Gs i (c3Gs.getD i g0)).l5ast ∧
       b.seasonAvgPts = (bRowAt c3Gs i (c3Gs.getD i g0)).seasonAvgPts) :=
  ⟨c3_parse, c3_filter_after_calculator c3Raws c3Gs c3_parse⟩

/-! ## Claim C2: cross-path equivalence on an identical trailing-10 window -/

theorem length_map_ws (ws : List Game) (stat : Game → ℚ) (hlen : ws.length = 10) :
    (ws.map stat).length = 10 := by simp [hlen]

/-- Reduction of a single-player grouped transform on a ten-game window plus
one current row, evaluated at the current row. -/
theorem kFeat_window (ws : List Game) (cur : Game) (stat : Game → ℚ)
    (f : List ℚ → Nat → Option ℚ) (hlen : ws.length = 10)
    (hpid : ∀ g ∈ ws, g.playerId = cur.playerId) :
    kFeat (fun s => s.playerId) cur.playerId stat f (ws ++ [cur]) 10 =
      f (ws.map stat ++ [stat cur]) 10 := by
  have hall : ∀ g ∈ ws ++ [cur], g.playerId = cur.playerId := by
    intro g hg
    rcases List.mem_append.mp hg with h | h
    · exact hpid g h
    · rw [List.mem_singleton.mp h]
  rw [kFeat_const _ _ _ _ _ _ hall (by rw [List.length_append, hlen]; omega)]
  rw [List.map_append]
  rfl

theorem take10_window (ws : List Game) (cur : Game) (stat : Game → ℚ)
    (hlen : ws.length = 10) :
    (ws.map stat ++ [stat cur]).take 10 = ws.map stat := by
  rw [← length_map_ws ws stat hlen]
  exact List.take_left _ _

theorem rollShiftMean_window (ws : List Game) (cur : Game) (stat : Game → ℚ)
    (w m : Nat) (hlen : ws.length = 10) (hmw : m ≤ w) (hm10 : m ≤ 10) :
    rollShiftMean w m (ws.map stat ++ [stat cur]) 10 =
      some (qmean (lastN w (ws.map stat))) := by
  unfold rollShiftMean rollOfPrior
  rw [take10_window ws cur stat hlen]
  rw [if_pos]
  rw [length_lastN, length_map_ws ws stat hlen]
  omega

theorem rollShiftVar_window (ws : List Game) (cur : Game) (stat : Game → ℚ)
    (w m : Nat) (hlen : ws.length = 10) (hmw : m ≤ w) (hm10 : m ≤ 10) :
    rollShiftVar w m (ws.map stat ++ [stat cur]) 10 =
      some (qvar (lastN w (ws.map stat))) := by
  unfold rollShiftVar rollVarOfPrior
  rw [take10_window ws cur stat hlen]
  rw [if_pos]
  rw [length_lastN, length_map_ws ws stat hlen]
  omega

theorem expShiftMean_window (ws : List Game) (cur : Game) (stat : Game → ℚ)
    (hlen : ws.length = 10) :
    expShiftMean (ws.map stat ++ [stat cur]) 10 = some (qmean (ws.map stat)) := by
  unfold expShiftMean expOfPrior
  rw [take10_window ws cur stat hlen]
  rw [if_pos]
  rw [length_map_ws ws stat hlen]
  omega

theorem lastN_self (xs : List ℚ) (n : Nat) (h : xs.length = n) : lastN n xs = xs := by
  unfold lastN
  rw [h]
  simp

/-- The matchup transform on the same window, split on whether the window
holds a prior game against the current opponent. -/
theorem kFeat_matchup_window (ws : List Game) (cur : Game) (stat : Game → ℚ)
    (hlen : ws.length = 10) (hpid : ∀ g ∈ ws, g.playerId = cur.playerId) :
    kFeat (fun s => (s.playerId, s.opponent)) (cur.playerId, cur.opponent) stat
        expShiftMean (ws ++ [cur]) 10 =
      (if 0 < (ws.filter fun s => s.opponent = cur.opponent).length
       then some (qmean ((ws.filter fun s => s.opponent = cur.opponent).map stat))
       else none) := by
  unfold kFeat
  have hpred : ∀ l : List Game, (∀ g ∈ l, g.playerId = cur.playerId) →
      (l.filter fun s => decide ((s.playerId, s.opponent) = (cur.playerId, cur.opponent))) =
      (l.filter fun s => decide (s.opponent = cur.opponent)) := by
    intro l hl
    apply List.filter_congr
    intro g hg
    simp [hl g hg]
  have htake : (ws ++ [cur]).take 10 = ws := by
    rw [← hlen]
    exact List.take_left _ _
  rw [htake]
  rw [List.filter_append, hpred ws hpid]
  have hcurf : ([cur].filter fun s =>
      decide ((s.playerId, s.opponent) = (cur.playerId, cur.opponent))) = [cur] := by
    simp
  rw [hcurf]
  have hcount : (ws.countP fun s =>
      decide ((s.playerId, s.opponent) = (cur.playerId, cur.opponent))) =
      (ws.filter fun s => decide (s.opponent = cur.opponent)).length := by
    rw [List.countP_eq_length_filter, hpred ws hpid]
  rw [hcount]
  unfold expShiftMean expOfPrior
  rw [List.map_append]
  have htake2 : ((ws.filter fun s => decide (s.opponent = cur.opponent)).map stat ++
      List.map stat [cur]).take (ws.filter fun s => decide (s.opponent = cur.opponent)).length =
      (ws.filter fun s => decide (s.opponent = cur.opponent)).map stat := by
    conv_lhs =>
      rw [show (ws.filter fun s => decide (s.opponent = cur.opponent)).length =
        ((ws.filter fun s => decide (s.opponent = cur.opponent)).map stat).length by
          rw [List.length_map]]
    exact List.take_left _ _
  rw [htake2]
  by_cases hpos : 0 < (ws.filter fun s => decide (s.opponent = cur.opponent)).length
  · rw [if_pos (by rw [List.length_map]; omega), if_pos hpos]
  · rw [if_neg (by rw [List.length_map]; omega), if_neg hpos]

theorem dFeat_window (ws : List Game) (cur : Game) (hlen : ws.length = 10)
    (hpid : ∀ g ∈ ws, g.playerId = cur.playerId) :
    dFeat (ws ++ [cur]) 10 cur.playerId =
      some ((cur.date : ℚ) - ((ws.getD 9 g0).date : ℚ)) := by
  unfold dFeat
  have hall : ∀ g ∈ ws ++ [cur], g.playerId = cur.playerId := by
    intro g hg
    rcases List.mem_append.mp hg with h | h
    · exact hpid g h
    · rw [List.mem_singleton.mp h]
  have hfil : ((ws ++ [cur]).filter fun s => decide (s.playerId = cur.playerId)) =
      ws ++ [cur] := by
    apply List.filter_eq_self.mpr
    intro a ha
    simpa using hall a ha
  have htake : (ws ++ [cur]).take 10 = ws := by
    rw [← hlen]
    exact List.take_left _ _
  rw [hfil, htake]
  have hcount : (ws.countP fun s => decide (s.playerId = cur.playerId)) = 10 := by
    rw [List.countP_eq_length.mpr]
    · exact hlen
    · intro a ha
      simpa using hpid a ha
  rw [hcount]
  have hlen2 : (((ws ++ [cur]).map fun s => ((s.date : ℚ))) : List ℚ).length = 11 := by
    simp [hlen]
  rw [List.take_of_length_le (by omega)]
  unfold diffOfPrior
  rw [if_pos (by omega)]
  rw [hlen2]
  have hg10 : (((ws ++ [cur]).map fun s => ((s.date : ℚ))).getD (11 - 1) 0) =
      (cur.date : ℚ) := by
    rw [List.getD_eq_getElem _ _ (by rw [hlen2]; omega)]
    rw [List.getElem_map]
    congr 1
    rw [List.getElem_append_right (by omega)]
    simp [hlen]
  have hg9 : (((ws ++ [cur]).map fun s => ((s.date : ℚ))).getD (11 - 2) 0) =
      ((ws.getD 9 g0).date : ℚ) := by
    rw [List.getD_eq_getElem _ _ (by rw [hlen2]; omega)]
    rw [List.getElem_map]
    have h9 : (9 : Nat) < ws.length := by omega
    congr 1
    rw [List.getElem_append_left (by omega)]
    rw [List.getD_eq_getElem _ _ h9]
  rw [hg10, hg9]

theorem getD_window (ws : List Game) (cur : Game) (hlen : ws.length = 10) :
    (ws ++ [cur]).getD 10 g0 = cur := by
  rw [List.getD_eq_getElem _ _ (by simp [hlen])]
  rw [List.getElem_append_right (by omega)]
  simp [hlen]

theorem kFeat_window10 (ws : List Game) (cur : Game) (hlen : ws.length = 10)
    (hpid : ∀ g ∈ ws, g.playerId = cur.playerId) (stat : Game → ℚ)
    (f : List ℚ → Nat → Option ℚ) :
    kFeat (fun s => s.playerId) cur.playerId stat f (ws ++ [cur]) 10 =
      f (ws.map stat ++ [stat cur]) 10 :=
  kFeat_window ws cur stat f hlen hpid

theorem roll53_window (ws : List Game) (cur : Game) (hlen : ws.length = 10)
    (stat : Game → ℚ) :
    rollShiftMean 5 3 (ws.map stat ++ [stat cur]) 10 =
      some (qmean (lastN 5 (ws.map stat))) :=
  rollShiftMean_window ws cur stat 5 3 hlen (by omega) (by omega)

theorem roll105_window (ws : List Game) (cur : Game) (hlen : ws.length = 10)
    (stat : Game → ℚ) :
    rollShiftMean 10 5 (ws.map stat ++ [stat cur]) 10 =
      some (qmean (lastN 10 (ws.map stat))) :=
  rollShiftMean_window ws cur stat 10 5 hlen (by omega) (by omega)

theorem var105_window (ws : List Game) (cur : Game) (hlen : ws.length = 10)
    (stat : Game → ℚ) :
    rollShiftVar 10 5 (ws.map stat ++ [stat cur]) 10 =
      some (qvar (lastN 10 (ws.map stat))) :=
  rollShiftVar_window ws cur stat 10 5 hlen (by omega) (by omega)

theorem exp_window10 (ws : List Game) (cur : Game) (hlen : ws.length = 10)
    (stat : Game → ℚ) :
    expShiftMean (ws.map stat ++ [stat cur]) 10 = some (qmean (ws.map stat)) :=
  expShiftMean_window ws cur stat hlen

theorem matchup_window10 (ws : List Game) (cur : Game) (hlen : ws.length = 10)
    (hpid : ∀ g ∈ ws, g.playerId = cur.playerId) (stat : Game → ℚ) :
    kFeat (fun s => (s.playerId, s.opponent)) (cur.playerId, cur.opponent) stat
        expShiftMean (ws ++ [cur]) 10 =
      (if 0 < (ws.filter fun s => s.opponent = cur.opponent).length
       then some (qmean ((ws.filter fun s => s.opponent = cur.opponent).map stat))
       else none) :=
  kFeat_matchup_window ws cur stat hlen hpid

set_option maxHeartbeats 1000000 in
/-- C2, amended (cross-path equivalence): when the batch feature tiers are
run over exactly a ten-game trailing window plus the current row, and the
realtime assembler receives the identical window with consistent opponent,
home flag and rest days, then every shared feature DERIVED FROM THE PLAYER
WINDOW is numerically identical between the two paths: the L5 and L10 means,
season average, variances (squared stds), trends, minutes and usage ratios,
shooting rates, context flags, matchup-vs-opponent averages including their
fallbacks, win rate and plus-minus.  The league-context features
(OPP_DEF_STRENGTH_PTS, REB and AST, OPP_PACE, TEAM_PACE) are excluded: the
counterexample below shows they genuinely diverge, which refutes the claim in
its original every-shared-feature form. -/
theorem c2_cross_path_equivalence_amended (ws : List Game) (cur : Game) (r : ℚ)
    (hlen : ws.length = 10)
    (hpid : ∀ g ∈ ws, g.playerId = cur.playerId)
    (hsorted : List.Sorted dLe ws)
    (hrest : r = ((cur.date : ℚ)) - (((ws.getD 9 g0).date : ℚ)) - 1)
    (hr0 : 0 ≤ r) :
    calculate_realtime_features ws cur.opponent cur.isHome r =
      some (rtCore ws cur.opponent cur.isHome r) ∧
    (let b := fillVsOppRow (clipRestRow ((computeFeatures (ws ++ [cur])).getD 10 b0))
     let f := rtCore ws cur.opponent cur.isHome r
     b.l5pts = some f.l5pts ∧ b.l10pts = some f.l10pts ∧
     b.seasonAvgPts = some f.seasonAvgPts ∧ b.l10ptsStd = some f.l10ptsStd ∧
     b.trendPts = some f.trendPts ∧
     b.l5reb = some f.l5reb ∧ b.l10reb = some f.l10reb ∧
     b.l10rebStd = some f.l10rebStd ∧ b.trendReb = some f.trendReb ∧
     b.l5ast = some f.l5ast ∧ b.l10ast = some f.l10ast ∧
     b.l10astStd = some f.l10astStd ∧ b.trendAst = some f.trendAst ∧
     b.l5min = some f.l5min ∧ b.l10min = some f.l10min ∧
     b.l5fga = some f.l5fga ∧ b.l5fta = some f.l5fta ∧
     b.usageRate = some f.usageRate ∧ b.ftRate = some f.ftRate ∧
     b.ppm5 = some f.ppm5 ∧ b.ppm10 = some f.ppm10 ∧
     b.l5fgPct = some f.l5fgPct ∧ b.l5fg3Pct = some f.l5fg3Pct ∧
     b.l5fg3m = some f.l5fg3m ∧
     b.g.isHome = f.isHome ∧ b.restDays = some f.restDays ∧
     b.b2b = f.b2b ∧ b.rested = f.rested ∧
     b.vsOppPts = some f.vsOppPts ∧ b.vsOppReb = some f.vsOppReb ∧
     b.vsOppAst = some f.vsOppAst ∧
     b.l5WinPct = some f.l5WinPct ∧ b.l5PlusMinus = some f.l5PlusMinus) := by
  have hsort : sortDate ws = ws := by
    unfold sortDate
    exact List.Sorted.insertionSort_eq hsorted
  have h10 : (10 : Nat) < (ws ++ [cur]).length := by
    rw [List.length_append, hlen, List.length_singleton]
    norm_num
  have hgd : (ws ++ [cur]).getD 10 g0 = cur := getD_window ws cur hlen
  have hno : ¬ ws.length < 5 := by
    rw [hlen]
    norm_num
  constructor
  · unfold calculate_realtime_features
    rw [if_neg hno, hsort]
  · rw [computeFeatures_getD _ _ h10, hgd]
    have hX : (cur.date : ℚ) - ((ws.getD 9 g0).date : ℚ) = r + 1 := by
      rw [hrest]
      ring
    have h11 : r + 1 - 1 = r := by ring
    have hclip : max 0 (min 7 r) = min r 7 := by
      rw [min_comm]
      exact max_eq_right (le_min hr0 (by norm_num))
    have hb2b : ((r + 1 = 1)) = ((r = 0)) := by
      apply propext
      constructor <;> intro h <;> linarith
    simp only [bRowAt, clipRestRow, fillVsOppRow, rtCore,
      kFeat_window10 ws cur hlen hpid, matchup_window10 ws cur hlen hpid,
      roll53_window ws cur hlen, roll105_window ws cur hlen,
      var105_window ws cur hlen, exp_window10 ws cur hlen,
      dFeat_window ws cur hlen hpid, osub, odivOff, Option.map_some, hlen,
      le_refl, if_true, hX, h11, hclip, hb2b]
    by_cases hL : 0 < (ws.filter fun s => s.opponent = cur.opponent).length
    · simp [hL, hclip]
    · simp [hL, hclip]

/-- A ten-game window, all against BOS, every game scoring 20 points. -/
def c2Ws : List Game :=
  [{ g0 with playerId := 1, idx := 0, date := 1, opponent := ("BOS").toList, team := ("LAL").toList, pts := 20, minutes := 30, reb := 5, ast := 4, fga := 15, fta := 5, wl := true, plusMinus := 3 },
   { g0 with playerId := 1, idx := 1, date := 2, opponent := ("BOS").toList, team := ("LAL").toList, pts := 20, minutes := 30, reb := 5, ast := 4, fga := 15, fta := 5, wl := false, plusMinus := 1 },
   { g0 with playerId := 1, idx := 2, date := 3, opponent := ("BOS").toList, team := ("LAL").toList, pts := 20, minutes := 30, reb := 5, ast := 4, fga := 15, fta := 5, wl := true, plusMinus := 2 },
   { g0 with playerId := 1, idx := 3, date := 4, opponent := ("BOS").toList, team := ("LAL").toList, pts := 20, minutes := 30, reb := 5, ast := 4, fga := 15, fta := 5, wl := true, plusMinus := 1 },
   { g0 with playerId := 1, idx := 4, date := 5, opponent := ("BOS").toList, team := ("LAL").toList, pts := 20, minutes := 30, reb := 5, ast := 4, fga := 15, fta := 5, wl := false, plusMinus := 0 },
   { g0 with playerId := 1, idx := 5, date := 6, opponent := ("BOS").toList, team := ("LAL").toList, pts := 20, minutes := 30, reb := 5, ast := 4, fga := 15, fta := 5, wl := true, plusMinus := 4 },
   { g0 with playerId := 1, idx := 6, date := 7, opponent := ("BOS").toList, team := ("LAL").toList, pts := 20, minutes := 30, reb := 5, ast := 4, fga := 15, fta := 5, wl := true, plusMinus := 2 },
   { g0 with playerId := 1, idx := 7, date := 8, opponent := ("BOS").toList, team := ("LAL").toList, pts := 20, minutes := 30, reb := 5, ast := 4, fga := 15, fta := 5, wl := false, plusMinus := 1 },
   { g0 with playerId := 1, idx := 8, date := 9, opponent := ("BOS").toList, team := ("LAL").toList, pts := 20, minutes := 30, reb := 5, ast := 4, fga := 15, fta := 5, wl := true, plusMinus := 3 },
   { g0 with playerId := 1, idx := 9, date := 10, opponent := ("BOS").toList, team := ("LAL").toList, pts := 20, minutes := 30, reb := 5, ast := 4, fga := 15, fta := 5, wl := true, plusMinus := 2 }]

/-- The current game, also against BOS, one day after the window ends. -/
def c2Cur : Game :=
  { g0 with
    playerId := 1
    idx := 10
    date := 11
    opponent := ("BOS").toList
    team := ("LAL").toList
    isHome := 1 }

set_option maxHeartbeats 1000000 in
/-- C2 counterexample: on the identical ten-game window the batch path
computes OPP_DEF_STRENGTH_PTS as the rolling mean of points scored against
the opponent, here 20, while the realtime path returns the hard-coded league
constant 15; the shared feature name OPP_DEF_STRENGTH_PTS therefore takes
different values on the two paths, refuting the claim for every shared
feature name. -/
theorem c2_cross_path_equivalence_counterexample :
    ((computeFeatures (c2Ws ++ [c2Cur])).getD 10 b0).oppDefPts = some (20 : ℚ) ∧
    (rtCore c2Ws c2Cur.opponent c2Cur.isHome 0).oppDefPts = 15 ∧
    calculate_realtime_features c2Ws c2Cur.opponent c2Cur.isHome 0 =
      some (rtCore c2Ws c2Cur.opponent c2Cur.isHome 0) ∧
    some (20 : ℚ) ≠ some (15 : ℚ) := by
  refine ⟨?_, rfl, ?_, by norm_num⟩
  · rw [computeFeatures_getD _ _ (by decide)]
    have hgd : (c2Ws ++ [c2Cur]).getD 10 g0 = c2Cur := by decide
    rw [hgd]
    simp only [bRowAt]
    have hsort : sortOppDate (c2Ws ++ [c2Cur]) = c2Ws ++ [c2Cur] := by decide
    rw [hsort]
    norm_num [kFeat, rollShiftMean, rollOfPrior, lastN, qmean, c2Ws, c2Cur, g0,
      List.filter, List.countP, List.countP.go, List.findIdx, List.findIdx.go]
  · have hsd : sortDate c2Ws = c2Ws := by decide
    unfold calculate_realtime_features
    rw [if_neg (by decide), hsd]

/-- Witness for the amended C2 at the concrete ten-game window. -/
theorem c2_cross_path_equivalence_amended_witness :
    (c2Ws.length = 10 ∧ (0 : ℚ) = ((c2Cur.date : ℚ)) - (((c2Ws.getD 9 g0).date : ℚ)) - 1) ∧
    (calculate_realtime_features c2Ws c2Cur.opponent c2Cur.isHome 0 =
      some (rtCore c2Ws c2Cur.opponent c2Cur.isHome 0) ∧
    (let b := fillVsOppRow (clipRestRow ((computeFeatures (c2Ws ++ [c2Cur])).getD 10 b0))
     let f := rtCore c2Ws c2Cur.opponent c2Cur.isHome 0
     b.l5pts = some f.l5pts ∧ b.l10pts = some f.l10pts ∧
     b.seasonAvgPts = some f.seasonAvgPts ∧ b.l10ptsStd = some f.l10ptsStd ∧
     b.trendPts = some f.trendPts ∧
     b.l5reb = some f.l5reb ∧ b.l10reb = some f.l10reb ∧
     b.l10rebStd = some f.l10rebStd ∧ b.trendReb = some f.trendReb ∧
     b.l5ast = some f.l5ast ∧ b.l10ast = some f.l10ast ∧
     b.l10astStd = some f.l10astStd ∧ b.trendAst = some f.trendAst ∧
     b.l5min = some f.l5min ∧ b.l10min = some f.l10min ∧
     b.l5fga = some f.l5fga ∧ b.l5fta = some f.l5fta ∧
     b.usageRate = some f.usageRate ∧ b.ftRate = some f.ftRate ∧
     b.ppm5 = some f.ppm5 ∧ b.ppm10 = some f.ppm10 ∧
     b.l5fgPct = some f.l5fgPct ∧ b.l5fg3Pct = some f.l5fg3Pct ∧
     b.l5fg3m = some f.l5fg3m ∧
     b.g.isHome = f.isHome ∧ b.restDays = some f.restDays ∧
     b.b2b = f.b2b ∧ b.rested = f.rested ∧
     b.vsOppPts = some f.vsOppPts ∧ b.vsOppReb = some f.vsOppReb ∧
     b.vsOppAst = some f.vsOppAst ∧
     b.l5WinPct = some f.l5WinPct ∧ b.l5PlusMinus = some f.l5PlusMinus)) :=
  ⟨⟨by decide, by norm_num [c2Ws, c2Cur, g0]⟩,
   c2_cross_path_equivalence_amended c2Ws c2Cur 0 (by decide) (by decide) (by decide)
     (by norm_num [c2Ws, c2Cur, g0]) (by norm_num)⟩
